import Mathlib

/-!
Verification of the smoldot excerpt: the multiplexed WebRTC connection engine
(libp2p/connection/established/multi_stream.rs) and the composite syncing
state machine (sync/all.rs), shallowly embedded in Lean 4.

Bytes are modelled as natural numbers, time instants and durations as natural
numbers, hash maps as association lists keyed by naturals, and slabs as lists
of optional values.  Rust panics are modelled by returning `none`.
-/

namespace Spec2

/-- Bytes of the wire protocol, modelled as natural numbers. -/
abbrev Bytes := List Nat

/-! ### Association lists (model of the hash maps of multi_stream.rs) -/

/-- Lookup in an association list keyed by naturals (model of HashMap::get). -/
def alookup {α : Type} : List (Nat × α) → Nat → Option α
  | [], _ => none
  | (k', v) :: t, k => if k' = k then some v else alookup t k

/-- Insert-or-replace in an association list (model of HashMap::insert). -/
def aupdate {α : Type} : List (Nat × α) → Nat → α → List (Nat × α)
  | [], k, v => [(k, v)]
  | (k', v') :: t, k, v =>
    if k' = k then (k, v) :: t else (k', v') :: aupdate t k v

/-- Remove a key from an association list (model of HashMap::remove). -/
def aerase {α : Type} : List (Nat × α) → Nat → List (Nat × α)
  | [], _ => []
  | (k', v') :: t, k => if k' = k then t else (k', v') :: aerase t k

/-- The keys of an association list. -/
def akeys {α : Type} (l : List (Nat × α)) : List Nat := l.map Prod.fst

/-! ### LEB128 and protobuf framing

Modelled from the spec: the helpers `util::leb128` and `util::protobuf` used
by multi_stream.rs are not part of the source excerpt.  Per section 4.1 of the
specification, an envelope is `leb128_usize(len) || body[len]` where the body
holds an optional tagged field 1 (varint enum `flags`) followed by an optional
tagged field 2 (length-delimited bytes `message`). -/

/-- Modelled from the spec: LEB128 decoding of an unsigned integer; returns
the decoded value and the remaining bytes, or `none` when the input ends
before the final byte of the number (incomplete input). -/
def leb128Decode : Bytes → Option (Nat × Bytes)
  | [] => none
  | b :: t =>
    if b < 128 then some (b, t)
    else
      match leb128Decode t with
      | none => none
      | some (v, rest) => some ((b % 128) + 128 * v, rest)

/-- Modelled from the spec: LEB128 encoding of an unsigned integer. -/
def leb128Encode (n : Nat) : Bytes :=
  if h : n < 128 then [n]
  else (n % 128 + 128) :: leb128Encode (n / 128)
  termination_by n
  decreasing_by exact Nat.div_lt_self (by omega) (by omega)

/-- Modelled from the spec: decoding of the optional length-delimited field 2
(key byte 18) at the end of an envelope body.  The body must be fully
consumed, as the outer parse delimits it exactly. -/
def parseBodyMsg : Bytes → Option Bytes
  | [] => some []
  | 18 :: t =>
    match leb128Decode t with
    | none => none
    | some (len, rest) => if rest.length = len then some rest else none
  | _ => none

/-- Modelled from the spec: decoding of an envelope body, made of an optional
varint field 1 (key byte 8, the flags) followed by an optional
length-delimited field 2 (the message). -/
def parseBody (body : Bytes) : Option (Option Nat × Bytes) :=
  match body with
  | 8 :: t =>
    match leb128Decode t with
    | none => none
    | some (f, rest) => (parseBodyMsg rest).map (fun m => (some f, m))
  | _ => (parseBodyMsg body).map (fun m => (none, m))

/-- Outcome of attempting to parse one envelope at the front of a read
buffer: a complete frame, an incomplete frame (more bytes needed), or a
protocol violation. -/
inductive FrameParse : Type
  | ok (frameSize : Nat) (flags : Option Nat) (msg : Bytes)
  | eof
  | err
  deriving DecidableEq

/-- Modelled from the spec: parse one envelope (leb128 length prefix followed
by the delimited body) at the front of the buffer. -/
def parseFrame (buf : Bytes) : FrameParse :=
  match leb128Decode buf with
  | none => .eof
  | some (len, rest) =>
    if rest.length < len then .eof
    else
      match parseBody (rest.take len) with
      | none => .err
      | some (flags, msg) => .ok (buf.length - (rest.length - len)) flags msg

/-- The triple extracted from a parse outcome by substream_read_write: an
incomplete frame behaves as `(0, none, [])`, and a decoding error is a
protocol violation (`none`). -/
def FrameParse.triple : FrameParse → Option (Nat × Option Nat × Bytes)
  | .ok f fl m => some (f, fl, m)
  | .eof => some (0, none, [])
  | .err => none

/-- Modelled from the spec: protobuf encoding of a varint field (the flags). -/
def enumTagEncode (field : Nat) (v : Nat) : Bytes :=
  (field * 8) :: leb128Encode v

/-- Modelled from the spec: protobuf encoding of a length-delimited field
(the message). -/
def bytesTagEncode (field : Nat) (m : Bytes) : Bytes :=
  ((field * 8 + 2) :: leb128Encode m.length) ++ m

/-- Modelled from the spec: encoding of a whole envelope from an optional
flag and the bytes written by the inner state machine; the message field is
emitted only when at least one byte was written. -/
def encodeEnvelope (flag : Option Nat) (msg : Bytes) : Bytes :=
  let body :=
    (match flag with
      | some f => enumTagEncode 1 f
      | none => []) ++
    (if msg.length ≠ 0 then bytesTagEncode 2 msg else [])
  leb128Encode body.length ++ body

/-! ### The multiplexed connection engine (multi_stream.rs)

The per-substream protocol state machine `substream::Substream` is out of
scope per the specification (its module is not part of the excerpt); it is
modelled as an opaque state type `σ` with an opaque event type `ε`, and its
operations are bundled in an `InnerApi`.  Outer connection events are an
opaque type `η`, user data an opaque type `υ`. -/

/-- Result of one call to the inner substream state machine's read_write:
the new state (`none` when the state machine has died), an optional event,
the number of bytes it read from its incoming buffer, the bytes it wrote,
whether it closed its writing side during the call, and a wake-up instant. -/
structure InnerResult (σ ε : Type) where
  state : Option σ
  event : Option ε
  readBytes : Nat
  written : Bytes
  closedWrite : Bool
  wakeUpAfter : Option Nat
  deriving DecidableEq

/-- Modelled from the spec: interface of the opaque per-substream protocol
state machine (section 4.2 of the specification), plus the translation of its
events into connection-level events (`mkEvent` always produces exactly one
event and may take the substream's user data). -/
structure InnerApi (σ ε η υ : Type) where
  ingoing : Nat → σ
  pingOut : String → σ
  requestOut : String → Nat → Option Bytes → Nat → σ
  notificationsOut : Nat → String → Bytes → Nat → σ
  readWrite : σ → Nat → Option Bytes → Option Nat → InnerResult σ ε
  reset : σ → Option ε
  queuePing : σ → Bytes → Nat → σ
  mkEvent : Nat → Option υ → ε → η × Option υ

/-- One substream record of the connection engine. -/
structure Substream (σ υ : Type) where
  id : Nat
  user_data : Option υ
  inner : Option σ
  read_buffer : Bytes
  read_buffer_partial_read : Nat
  remote_writing_side_closed : Bool
  local_writing_side_closed : Bool
  deriving DecidableEq

/-- State of a fully-established multi-stream connection. -/
structure MultiStream (σ υ η : Type) where
  pending_events : List η
  in_substreams : List (Nat × Substream σ υ)
  out_in_substreams_map : List (Nat × Nat)
  next_out_substream_id : Nat
  desired_out_substreams : List (Substream σ υ)
  ping_substream : Option Nat
  next_ping : Nat
  ping_payloads : List Bytes
  max_protocol_name_len : Nat
  ping_protocol : String
  ping_interval : Nat
  ping_timeout : Nat
  deriving DecidableEq

/-- Configuration of a connection; the ChaCha20 randomness seeded by
`randomness_seed` is modelled as the stream of ping payloads it produces. -/
structure MSConfig where
  substreams_capacity : Nat
  max_inbound_substreams : Nat
  max_protocol_name_len : Nat
  ping_protocol : String
  ping_interval : Nat
  ping_timeout : Nat
  first_out_ping : Nat
  ping_payloads : List Bytes
  deriving DecidableEq

/-- Modelled from the spec: the `ReadWrite` value of read_write.rs (not part
of the excerpt); fields per section 6 of the specification.  The outgoing
buffer is represented by its available space plus the list of bytes written
out so far. -/
structure RW where
  now : Nat
  incoming : Option Bytes
  outgoingAvail : Option Nat
  readBytes : Nat
  writtenBytes : Nat
  written : Bytes
  wakeUpAfter : Option Nat
  deriving DecidableEq

/-- Modelled from the spec: space still available in the outgoing buffer. -/
def RW.outgoingBufferAvailable (rw : RW) : Nat := rw.outgoingAvail.getD 0

/-- Modelled from the spec: consume bytes from the incoming buffer. -/
def RW.advanceRead (rw : RW) (n : Nat) : RW :=
  { rw with incoming := rw.incoming.map (fun b => b.drop n),
            readBytes := rw.readBytes + n }

/-- Modelled from the spec: append bytes to the outgoing buffer. -/
def RW.writeOut (rw : RW) (data : Bytes) : RW :=
  { rw with written := rw.written ++ data,
            writtenBytes := rw.writtenBytes + data.length,
            outgoingAvail := rw.outgoingAvail.map (fun a => a - data.length) }

/-- Modelled from the spec: ask the host to call back at the given instant
(the earliest requested instant wins). -/
def RW.wake (rw : RW) (t : Nat) : RW :=
  match rw.wakeUpAfter with
  | none => { rw with wakeUpAfter := some t }
  | some u => { rw with wakeUpAfter := some (min u t) }

/-- See MAX_PENDING_EVENTS in multi_stream.rs. -/
def MAX_PENDING_EVENTS : Nat := 4

/-- Creates a new connection (MultiStream::webrtc). -/
def webrtc {σ υ η : Type} (config : MSConfig) : MultiStream σ υ η :=
  { pending_events := []
    in_substreams := []
    out_in_substreams_map := []
    next_out_substream_id := 0
    desired_out_substreams := []
    ping_substream := none
    next_ping := config.first_out_ping
    ping_payloads := config.ping_payloads
    max_protocol_name_len := config.max_protocol_name_len
    ping_protocol := config.ping_protocol
    ping_interval := config.ping_interval
    ping_timeout := config.ping_timeout }

/-- Removes an event from the queue of events and returns it
(MultiStream::pull_event). -/
def pull_event {σ υ η : Type} (ms : MultiStream σ υ η) :
    Option η × MultiStream σ υ η :=
  match ms.pending_events with
  | [] => (none, ms)
  | e :: t => (some e, { ms with pending_events := t })

/-- Number of new outbound substreams the state machine would like to see
opened (MultiStream::desired_outbound_substreams). -/
def desired_outbound_substreams {σ υ η : Type} (ms : MultiStream σ υ η) : Nat :=
  ms.desired_out_substreams.length +
    (if ms.ping_substream = none then 1 else 0)

/-- Notifies the state machine that a new substream has been opened
(MultiStream::add_substream).  Returns `none` on the panic (duplicate
transport id) and on the source's todo (outbound with an empty desired
queue). -/
def add_substream {σ ε η υ : Type} (api : InnerApi σ ε η υ)
    (ms : MultiStream σ υ η) (id : Nat) (outbound : Bool) :
    Option (MultiStream σ υ η) :=
  let branch : Option (Substream σ υ × MultiStream σ υ η) :=
    if !outbound then
      some ({ id := ms.next_out_substream_id
              inner := some (api.ingoing ms.max_protocol_name_len)
              user_data := none
              read_buffer := []
              read_buffer_partial_read := 0
              local_writing_side_closed := false
              remote_writing_side_closed := false },
            { ms with next_out_substream_id := ms.next_out_substream_id + 1 })
    else if ms.ping_substream = none then
      some ({ id := ms.next_out_substream_id
              inner := some (api.pingOut ms.ping_protocol)
              user_data := none
              read_buffer := []
              read_buffer_partial_read := 0
              local_writing_side_closed := false
              remote_writing_side_closed := false },
            { ms with next_out_substream_id := ms.next_out_substream_id + 1
                      ping_substream := some id })
    else
      match ms.desired_out_substreams with
      | desired :: rest =>
        some (desired, { ms with desired_out_substreams := rest })
      | [] => none
  match branch with
  | none => none
  | some (substream, ms1) =>
    if (alookup ms1.in_substreams id).isSome then none
    else
      some { ms1 with
              out_in_substreams_map :=
                aupdate ms1.out_in_substreams_map substream.id id
              in_substreams := aupdate ms1.in_substreams id substream }

/-- The value `_was_in` computed by MultiStream::reset_substream before its
debug assertion `_was_in.is_none()`: the entry removed from
out_in_substreams_map for the record stored under the given transport id. -/
def reset_substream_was_in {σ υ η : Type} (ms : MultiStream σ υ η)
    (substream_id : Nat) : Option Nat :=
  match alookup ms.in_substreams substream_id with
  | none => none
  | some substream => alookup ms.out_in_substreams_map substream.id

/-- Immediately destroys the substream with the given identifier
(MultiStream::reset_substream).  `none` models the panics (unknown id,
inner state machine already gone). -/
def reset_substream {σ ε η υ : Type} (api : InnerApi σ ε η υ)
    (ms : MultiStream σ υ η) (substream_id : Nat) :
    Option (MultiStream σ υ η) :=
  match alookup ms.in_substreams substream_id with
  | none => none
  | some substream =>
    let ms1 := { ms with
                  in_substreams := aerase ms.in_substreams substream_id
                  out_in_substreams_map :=
                    aerase ms.out_in_substreams_map substream.id }
    let ms2 := if ms1.ping_substream = some substream_id
               then { ms1 with ping_substream := none } else ms1
    match substream.inner with
    | none => none
    | some inner =>
      match api.reset inner with
      | none => some ms2
      | some ev =>
        let (outEv, _) := api.mkEvent substream.id substream.user_data ev
        some { ms2 with pending_events := ms2.pending_events ++ [outEv] }

/-- Sends a request to the remote (MultiStream::add_request): pushes a fresh
substream record onto the desired-outbound queue and returns its external
substream id. -/
def add_request {σ ε η υ : Type} (api : InnerApi σ ε η υ)
    (ms : MultiStream σ υ η) (protocol_name : String) (request : Option Bytes)
    (timeout : Nat) (max_response_size : Nat) (user_data : υ) :
    MultiStream σ υ η × Nat :=
  let substream_id := ms.next_out_substream_id
  ({ ms with
      next_out_substream_id := ms.next_out_substream_id + 1
      desired_out_substreams := ms.desired_out_substreams ++
        [{ id := substream_id
           inner := some (api.requestOut protocol_name timeout request
                            max_response_size)
           user_data := some user_data
           read_buffer := []
           read_buffer_partial_read := 0
           local_writing_side_closed := false
           remote_writing_side_closed := false }] },
   substream_id)

/-- Opens an outgoing notifications substream
(MultiStream::open_notifications_substream). -/
def open_notifications_substream {σ ε η υ : Type} (api : InnerApi σ ε η υ)
    (ms : MultiStream σ υ η) (protocol_name : String)
    (max_handshake_size : Nat) (handshake : Bytes) (timeout : Nat)
    (user_data : υ) : MultiStream σ υ η × Nat :=
  let substream_id := ms.next_out_substream_id
  ({ ms with
      next_out_substream_id := ms.next_out_substream_id + 1
      desired_out_substreams := ms.desired_out_substreams ++
        [{ id := substream_id
           inner := some (api.notificationsOut timeout protocol_name handshake
                            max_handshake_size)
           user_data := some user_data
           read_buffer := []
           read_buffer_partial_read := 0
           local_writing_side_closed := false
           remote_writing_side_closed := false }] },
   substream_id)

/-- Whether a substream should remain open or be killed (SubstreamFate). -/
inductive SubstreamFate : Type
  | Continue
  | Reset
  deriving DecidableEq

/-- How one iteration of the driver loop of substream_read_write ends:
return Continue, the early Reset return on a protocol violation (the
substream record stays in the maps, a known source TODO), or the Reset at
the end of an iteration after the inner state machine died (the record is
removed from the maps). -/
inductive LoopExit : Type
  | contin
  | resetKept
  | resetRemoved
  deriving DecidableEq

/-- Outcome of one iteration of the driver loop: a panic of the source, the
end of the loop, or another iteration. -/
inductive IterOut (σ υ η : Type) : Type
  | fault
  | done (pending : List η) (rec : Substream σ υ) (rw : RW) (ex : LoopExit)
  | again (pending : List η) (rec : Substream σ υ) (rw : RW)
  deriving DecidableEq

/-- Whether the parsed flags are FIN (0) or RESET_STREAM (2). -/
def finOrReset (flags : Option Nat) : Bool :=
  match flags with
  | some f => f == 0 || f == 2
  | none => false

/-- Whether the parsed flags are RESET_STREAM (2). -/
def isResetFlag (flags : Option Nat) : Bool :=
  match flags with
  | some f => f == 2
  | none => false

/-- Shared tail of one driver-loop iteration: translate an optional inner
event into a connection event and queue it, then either remove the substream
(inner state machine gone), stop looping, or loop again. -/
def srwFinish {σ ε η υ : Type} (api : InnerApi σ ε η υ) (pending : List η)
    (rec : Substream σ υ) (rw : RW) (ev : Option ε) (cl : Bool) :
    IterOut σ υ η :=
  let step : List η × Substream σ υ × Bool :=
    match ev with
    | none => (pending, rec, cl)
    | some e =>
      let r := api.mkEvent rec.id rec.user_data e
      (pending ++ [r.1], { rec with user_data := r.2 }, true)
  let pending1 := step.1
  let rec1 := step.2.1
  let cl1 := step.2.2
  if rec1.inner.isNone then .done pending1 rec1 rw .resetRemoved
  else if cl1 = false then .done pending1 rec1 rw .contin
  else .again pending1 rec1 rw

/-- One iteration of the driver loop of MultiStream::substream_read_write:
backpressure gate, outgoing-space gate, ingestion into the read buffer,
envelope parse, then either the fully-delivered-frame branch (pop the frame
and process its flags) or the delivery branch (drive the inner state machine
over the unread message tail and emit an envelope), followed by event
dispatch and the termination checks. -/
def srwIter {σ ε η υ : Type} (api : InnerApi σ ε η υ) (pending : List η)
    (rec : Substream σ υ) (rw : RW) : IterOut σ υ η :=
  if MAX_PENDING_EVENTS ≤ pending.length then .done pending rec rw .contin
  else if rw.outgoingBufferAvailable < 6 then .done pending rec rw .contin
  else
    let ingest : Substream σ υ × RW × Bool :=
      match rw.incoming with
      | some incoming_buffer =>
        let maxToTransfer :=
          min incoming_buffer.length (16384 - rec.read_buffer.length)
        ({ rec with read_buffer :=
             rec.read_buffer ++ incoming_buffer.take maxToTransfer },
         rw.advanceRead maxToTransfer,
         decide (maxToTransfer ≠ incoming_buffer.length))
      | none => (rec, rw, false)
    let rec1 := ingest.1
    let rw1 := ingest.2.1
    let cl1 := ingest.2.2
    match (parseFrame rec1.read_buffer).triple with
    | none => .done pending rec1 rw1 .resetKept
    | some (frameSize, flags, msg) =>
      if frameSize ≠ 0 ∧ msg.length ≤ rec1.read_buffer_partial_read then
        let rec2 := { rec1 with
          read_buffer_partial_read := 0
          read_buffer := rec1.read_buffer.drop frameSize
          remote_writing_side_closed :=
            if finOrReset flags then true
            else rec1.remote_writing_side_closed }
        if isResetFlag flags then
          match rec2.inner with
          | none => .fault
          | some i =>
            srwFinish api pending { rec2 with inner := none } rw1
              (api.reset i) true
        else srwFinish api pending rec2 rw1 none true
      else
        match rec1.inner with
        | none => .fault
        | some i =>
          let cap := (min rw1.outgoingBufferAvailable 16384) - 10
          let subIncoming :=
            if rec1.remote_writing_side_closed then none
            else some (msg.drop rec1.read_buffer_partial_read)
          let subOutgoing :=
            if rec1.local_writing_side_closed then none else some cap
          let res := api.readWrite i rw1.now subIncoming subOutgoing
          let rec2 := { rec1 with
            inner := res.state
            read_buffer_partial_read :=
              rec1.read_buffer_partial_read + res.readBytes }
          let rw2 :=
            match res.wakeUpAfter with
            | some t => rw1.wake t
            | none => rw1
          let cl2 := cl1 || res.readBytes != 0 || res.written.length != 0
          let outAfterSome :=
            !rec2.local_writing_side_closed && !res.closedWrite
          let flagStep : Substream σ υ × Option Nat :=
            if res.state.isNone &&
               (!rec2.remote_writing_side_closed || outAfterSome) then
              (rec2, some 2)
            else if !rec2.local_writing_side_closed && !outAfterSome then
              ({ rec2 with local_writing_side_closed := true }, some 0)
            else (rec2, none)
          let rec3 := flagStep.1
          let flagOut := flagStep.2
          let emit : RW × Bool :=
            if flagOut.isSome || res.written.length != 0 then
              (rw2.writeOut (encodeEnvelope flagOut res.written), true)
            else (rw2, cl2)
          srwFinish api pending rec3 emit.1 res.event emit.2

/-- The driver loop of substream_read_write, with explicit fuel; running out
of fuel is reported as `none` like a panic. -/
def srwLoop {σ ε η υ : Type} (api : InnerApi σ ε η υ) :
    Nat → List η → Substream σ υ → RW →
    Option (List η × Substream σ υ × RW × LoopExit)
  | 0, _, _, _ => none
  | fuel + 1, pending, rec, rw =>
    match srwIter api pending rec rw with
    | .fault => none
    | .done p r w ex => some (p, r, w, ex)
    | .again p r w => srwLoop api fuel p r w

/-- Ping housekeeping of substream_read_write (multi_stream.rs lines
292-307): when called on the ping substream, queue a fresh ping payload into
the inner state machine if the next-ping instant was reached, advancing
next_ping, and ask to be woken up at the next-ping instant. -/
def pingHousekeeping {σ ε η υ : Type} (api : InnerApi σ ε η υ)
    (ms : MultiStream σ υ η) (substream_id : Nat) (rec : Substream σ υ)
    (rw : RW) : Option (MultiStream σ υ η × Substream σ υ × RW) :=
  if ms.ping_substream = some substream_id then
    if ms.next_ping ≤ rw.now then
      match rec.inner with
      | none => none
      | some i =>
        let payload := ms.ping_payloads.headD []
        let rec1 := { rec with
          inner := some (api.queuePing i payload (rw.now + ms.ping_timeout)) }
        let ms1 := { ms with
          next_ping := rw.now + ms.ping_interval
          ping_payloads := ms.ping_payloads.tail }
        some (ms1, rec1, rw.wake ms1.next_ping)
    else some (ms, rec, rw.wake ms.next_ping)
  else some (ms, rec, rw)

/-- Reads/writes data on a substream (MultiStream::substream_read_write):
ping housekeeping followed by the driver loop; on the final Reset the
substream is removed from both maps and the ping slot is cleared. -/
def substream_read_write {σ ε η υ : Type} (api : InnerApi σ ε η υ)
    (fuel : Nat) (ms : MultiStream σ υ η) (substream_id : Nat) (rw : RW) :
    Option (MultiStream σ υ η × RW × SubstreamFate) :=
  match alookup ms.in_substreams substream_id with
  | none => none
  | some rec =>
    if rw.incoming.isSome && rw.outgoingAvail.isSome then
      match pingHousekeeping api ms substream_id rec rw with
      | none => none
      | some (ms1, rec1, rw1) =>
        match srwLoop api fuel ms1.pending_events rec1 rw1 with
        | none => none
        | some (pending, rec2, rw2, ex) =>
          match ex with
          | .contin =>
            some ({ ms1 with
                     pending_events := pending
                     in_substreams :=
                       aupdate ms1.in_substreams substream_id rec2 },
                  rw2, .Continue)
          | .resetKept =>
            some ({ ms1 with
                     pending_events := pending
                     in_substreams :=
                       aupdate ms1.in_substreams substream_id rec2 },
                  rw2, .Reset)
          | .resetRemoved =>
            some ({ ms1 with
                     pending_events := pending
                     ping_substream :=
                       if ms1.ping_substream = some substream_id then none
                       else ms1.ping_substream
                     out_in_substreams_map :=
                       aerase ms1.out_in_substreams_map rec2.id
                     in_substreams :=
                       aerase ms1.in_substreams substream_id },
                  rw2, .Reset)
    else none

/-! ### Association list lemmas -/

theorem alookup_eq_none_iff {α : Type} {l : List (Nat × α)} {k : Nat} :
    alookup l k = none ↔ k ∉ akeys l := by
  induction l with
  | nil => simp [alookup, akeys]
  | cons hd t ih =>
    obtain ⟨k', v⟩ := hd
    by_cases hk : k' = k
    · subst hk; simp [alookup, akeys]
    · simp [alookup, akeys, hk, ih, Ne.symm hk]

theorem mem_akeys_of_alookup {α : Type} {l : List (Nat × α)} {k : Nat}
    {v : α} (h : alookup l k = some v) : k ∈ akeys l := by
  by_contra hmem
  rw [← alookup_eq_none_iff] at hmem
  rw [h] at hmem
  exact Option.noConfusion hmem

theorem aupdate_eq_append {α : Type} {l : List (Nat × α)} {k : Nat} (v : α)
    (h : alookup l k = none) : aupdate l k v = l ++ [(k, v)] := by
  induction l with
  | nil => simp [aupdate]
  | cons hd t ih =>
    obtain ⟨k', v'⟩ := hd
    by_cases hk : k' = k
    · subst hk; simp [alookup] at h
    · simp only [alookup, if_neg hk] at h
      simp [aupdate, hk, ih h]

theorem alookup_aupdate_self {α : Type} (l : List (Nat × α)) (k : Nat)
    (v : α) : alookup (aupdate l k v) k = some v := by
  induction l with
  | nil => simp [aupdate, alookup]
  | cons hd t ih =>
    obtain ⟨k', v'⟩ := hd
    by_cases hk : k' = k
    · subst hk; simp [aupdate, alookup]
    · simp [aupdate, alookup, hk, ih]

theorem alookup_aupdate_ne {α : Type} (l : List (Nat × α)) {j k : Nat}
    (v : α) (h : j ≠ k) : alookup (aupdate l k v) j = alookup l j := by
  induction l with
  | nil =>
    simp only [aupdate, alookup]
    exact if_neg (fun hh => h hh.symm)
  | cons hd t ih =>
    obtain ⟨k', v'⟩ := hd
    by_cases hk : k' = k
    · subst hk
      simp only [aupdate, if_pos rfl, alookup]
      rw [if_neg (fun hh => h hh.symm), if_neg (fun hh => h hh.symm)]
    · simp [aupdate, alookup, hk, ih]

theorem akeys_aupdate_of_some {α : Type} {l : List (Nat × α)} {k : Nat}
    {v₀ : α} (v : α) (h : alookup l k = some v₀) :
    akeys (aupdate l k v) = akeys l := by
  induction l with
  | nil => simp [alookup] at h
  | cons hd t ih =>
    obtain ⟨k', v'⟩ := hd
    by_cases hk : k' = k
    · subst hk; simp [aupdate, akeys]
    · simp only [alookup, if_neg hk] at h
      have hrec := ih h
      simp only [akeys] at hrec
      simp [aupdate, akeys, hk, hrec]

theorem length_aupdate_of_some {α : Type} {l : List (Nat × α)} {k : Nat}
    {v₀ : α} (v : α) (h : alookup l k = some v₀) :
    (aupdate l k v).length = l.length := by
  have := @akeys_aupdate_of_some α l k v₀ v h
  have h1 : (akeys (aupdate l k v)).length = (akeys l).length := by rw [this]
  simpa [akeys] using h1

theorem aerase_sublist {α : Type} (l : List (Nat × α)) (k : Nat) :
    (aerase l k).Sublist l := by
  induction l with
  | nil => simp [aerase]
  | cons hd t ih =>
    obtain ⟨k', v'⟩ := hd
    by_cases hk : k' = k
    · simp only [aerase, if_pos hk]
      exact List.sublist_cons_self _ _
    · simp only [aerase, if_neg hk]
      exact ih.cons₂ _

theorem alookup_aerase_ne {α : Type} (l : List (Nat × α)) {j k : Nat}
    (h : j ≠ k) : alookup (aerase l k) j = alookup l j := by
  induction l with
  | nil => simp [aerase]
  | cons hd t ih =>
    obtain ⟨k', v'⟩ := hd
    by_cases hk : k' = k
    · subst hk
      have e1 : aerase ((k', v') :: t) k' = t := by simp [aerase]
      have e2 : alookup ((k', v') :: t) j = alookup t j := by
        simp only [alookup]
        exact if_neg (fun hh => h hh.symm)
      rw [e1, e2]
    · simp [aerase, alookup, hk, ih]

theorem alookup_aerase_self {α : Type} {l : List (Nat × α)} {k : Nat}
    (nd : (akeys l).Nodup) : alookup (aerase l k) k = none := by
  induction l with
  | nil => simp [aerase, alookup]
  | cons hd t ih =>
    obtain ⟨k', v'⟩ := hd
    simp only [akeys, List.map_cons, List.nodup_cons] at nd
    by_cases hk : k' = k
    · subst hk
      simp only [aerase, if_pos rfl]
      rw [alookup_eq_none_iff]
      exact nd.1
    · simp only [aerase, if_neg hk, alookup, if_neg hk]
      exact ih nd.2

theorem length_aerase_of_some {α : Type} {l : List (Nat × α)} {k : Nat}
    {v : α} (h : alookup l k = some v) :
    (aerase l k).length + 1 = l.length := by
  induction l with
  | nil => simp [alookup] at h
  | cons hd t ih =>
    obtain ⟨k', v'⟩ := hd
    by_cases hk : k' = k
    · subst hk; simp [aerase]
    · simp only [alookup, if_neg hk] at h
      simp [aerase, hk, ih h]

theorem akeys_aerase_sublist {α : Type} (l : List (Nat × α)) (k : Nat) :
    (akeys (aerase l k)).Sublist (akeys l) :=
  (aerase_sublist l k).map Prod.fst

/-! ### The substream-map invariant of the connection engine -/

/-- Invariant of the two substream maps, together with the auxiliary facts
about identifier freshness needed to preserve it. -/
structure MSInv {σ υ η : Type} (ms : MultiStream σ υ η) : Prop where
  inNodup : (akeys ms.in_substreams).Nodup
  outNodup : (akeys ms.out_in_substreams_map).Nodup
  sizes : ms.in_substreams.length = ms.out_in_substreams_map.length
  fwd : ∀ tid rec, alookup ms.in_substreams tid = some rec →
    alookup ms.out_in_substreams_map rec.id = some tid
  bwd : ∀ oid tid, alookup ms.out_in_substreams_map oid = some tid →
    ∃ rec, alookup ms.in_substreams tid = some rec ∧ rec.id = oid
  idLt : ∀ tid rec, alookup ms.in_substreams tid = some rec →
    rec.id < ms.next_out_substream_id
  desiredLt : ∀ d ∈ ms.desired_out_substreams,
    d.id < ms.next_out_substream_id
  desiredFresh : ∀ d ∈ ms.desired_out_substreams,
    alookup ms.out_in_substreams_map d.id = none
  desiredNodup : (ms.desired_out_substreams.map Substream.id).Nodup

theorem MSInv.out_lookup_ge_none {σ υ η : Type} {ms : MultiStream σ υ η}
    (inv : MSInv ms) {k : Nat} (h : ms.next_out_substream_id ≤ k) :
    alookup ms.out_in_substreams_map k = none := by
  cases ho : alookup ms.out_in_substreams_map k with
  | none => rfl
  | some tid =>
    obtain ⟨rec, hin, hid⟩ := inv.bwd k tid ho
    have := inv.idLt tid rec hin
    omega

theorem msinv_congr {σ υ η : Type} {ms ms' : MultiStream σ υ η}
    (inv : MSInv ms)
    (h1 : ms'.in_substreams = ms.in_substreams)
    (h2 : ms'.out_in_substreams_map = ms.out_in_substreams_map)
    (h3 : ms'.next_out_substream_id = ms.next_out_substream_id)
    (h4 : ms'.desired_out_substreams = ms.desired_out_substreams) :
    MSInv ms' := by
  refine ⟨?_, ?_, ?_, ?_, ?_, ?_, ?_, ?_, ?_⟩ <;>
    simp only [h1, h2, h3, h4]
  · exact inv.inNodup
  · exact inv.outNodup
  · exact inv.sizes
  · exact inv.fwd
  · exact inv.bwd
  · exact inv.idLt
  · exact inv.desiredLt
  · exact inv.desiredFresh
  · exact inv.desiredNodup

theorem msinv_insert {σ υ η : Type} {ms ms' : MultiStream σ υ η}
    {tid : Nat} {rec : Substream σ υ}
    (inv : MSInv ms)
    (hin : ms'.in_substreams = aupdate ms.in_substreams tid rec)
    (hout : ms'.out_in_substreams_map =
      aupdate ms.out_in_substreams_map rec.id tid)
    (hnext : ms.next_out_substream_id ≤ ms'.next_out_substream_id)
    (hrecLt : rec.id < ms'.next_out_substream_id)
    (hrecOut : alookup ms.out_in_substreams_map rec.id = none)
    (htid : alookup ms.in_substreams tid = none)
    (hdes : ∀ d ∈ ms'.desired_out_substreams, d ∈ ms.desired_out_substreams)
    (hdesnodup : (ms'.desired_out_substreams.map Substream.id).Nodup)
    (hdesFresh2 : ∀ d ∈ ms'.desired_out_substreams, d.id ≠ rec.id) :
    MSInv ms' := by
  have hinEq : ms'.in_substreams = ms.in_substreams ++ [(tid, rec)] := by
    rw [hin, aupdate_eq_append _ htid]
  have houtEq : ms'.out_in_substreams_map =
      ms.out_in_substreams_map ++ [(rec.id, tid)] := by
    rw [hout, aupdate_eq_append _ hrecOut]
  refine ⟨?_, ?_, ?_, ?_, ?_, ?_, ?_, ?_, ?_⟩
  · rw [hinEq]
    simp only [akeys, List.map_append, List.map_cons, List.map_nil]
    rw [List.nodup_append]
    refine ⟨inv.inNodup, List.nodup_singleton _, ?_⟩
    intro a ha hb
    simp only [List.mem_singleton] at hb
    subst hb
    exact (alookup_eq_none_iff.mp htid) ha
  · rw [houtEq]
    simp only [akeys, List.map_append, List.map_cons, List.map_nil]
    rw [List.nodup_append]
    refine ⟨inv.outNodup, List.nodup_singleton _, ?_⟩
    intro a ha hb
    simp only [List.mem_singleton] at hb
    subst hb
    exact (alookup_eq_none_iff.mp hrecOut) ha
  · rw [hinEq, houtEq]
    simp [inv.sizes]
  · intro tid' rec' h'
    rw [hin] at h'
    rw [hout]
    by_cases ht : tid' = tid
    · subst ht
      rw [alookup_aupdate_self] at h'
      cases h'
      exact alookup_aupdate_self _ _ _
    · rw [alookup_aupdate_ne _ _ ht] at h'
      have hold := inv.fwd tid' rec' h'
      have hne : rec'.id ≠ rec.id := by
        intro he
        rw [he, hrecOut] at hold
        exact Option.noConfusion hold
      rw [alookup_aupdate_ne _ _ hne]
      exact hold
  · intro oid tid' h'
    rw [hout] at h'
    rw [hin]
    by_cases ho : oid = rec.id
    · subst ho
      rw [alookup_aupdate_self] at h'
      cases h'
      exact ⟨rec, alookup_aupdate_self _ _ _, rfl⟩
    · rw [alookup_aupdate_ne _ _ ho] at h'
      obtain ⟨rec', hin', hid'⟩ := inv.bwd oid tid' h'
      have hne : tid' ≠ tid := by
        intro he
        rw [he, htid] at hin'
        exact Option.noConfusion hin'
      exact ⟨rec', by rw [alookup_aupdate_ne _ _ hne]; exact hin', hid'⟩
  · intro tid' rec' h'
    rw [hin] at h'
    by_cases ht : tid' = tid
    · subst ht
      rw [alookup_aupdate_self] at h'
      cases h'
      exact hrecLt
    · rw [alookup_aupdate_ne _ _ ht] at h'
      have := inv.idLt tid' rec' h'
      omega
  · intro d hd
    have := inv.desiredLt d (hdes d hd)
    omega
  · intro d hd
    rw [hout, alookup_aupdate_ne _ _ (hdesFresh2 d hd)]
    exact inv.desiredFresh d (hdes d hd)
  · exact hdesnodup

theorem msinv_erase {σ υ η : Type} {ms ms' : MultiStream σ υ η}
    {tid : Nat} {rec : Substream σ υ}
    (inv : MSInv ms)
    (hrec : alookup ms.in_substreams tid = some rec)
    (hin : ms'.in_substreams = aerase ms.in_substreams tid)
    (hout : ms'.out_in_substreams_map =
      aerase ms.out_in_substreams_map rec.id)
    (hnext : ms'.next_out_substream_id = ms.next_out_substream_id)
    (hdes : ms'.desired_out_substreams = ms.desired_out_substreams) :
    MSInv ms' := by
  have houtRec : alookup ms.out_in_substreams_map rec.id = some tid :=
    inv.fwd tid rec hrec
  refine ⟨?_, ?_, ?_, ?_, ?_, ?_, ?_, ?_, ?_⟩
  · rw [hin]
    exact inv.inNodup.sublist (akeys_aerase_sublist _ _)
  · rw [hout]
    exact inv.outNodup.sublist (akeys_aerase_sublist _ _)
  · rw [hin, hout]
    have h1 := length_aerase_of_some hrec
    have h2 := length_aerase_of_some houtRec
    have := inv.sizes
    omega
  · intro tid' rec' h'
    rw [hin] at h'
    rw [hout]
    by_cases ht : tid' = tid
    · subst ht
      rw [alookup_aerase_self inv.inNodup] at h'
      exact Option.noConfusion h'
    · rw [alookup_aerase_ne _ ht] at h'
      have hold := inv.fwd tid' rec' h'
      have hne : rec'.id ≠ rec.id := by
        intro he
        rw [he, houtRec] at hold
        cases hold
        exact ht rfl
      rw [alookup_aerase_ne _ hne]
      exact hold
  · intro oid tid' h'
    rw [hout] at h'
    rw [hin]
    by_cases ho : oid = rec.id
    · subst ho
      rw [alookup_aerase_self inv.outNodup] at h'
      exact Option.noConfusion h'
    · rw [alookup_aerase_ne _ ho] at h'
      obtain ⟨rec', hin', hid'⟩ := inv.bwd oid tid' h'
      have hne : tid' ≠ tid := by
        intro he
        subst he
        rw [hrec] at hin'
        cases hin'
        exact ho hid'.symm
      exact ⟨rec', by rw [alookup_aerase_ne _ hne]; exact hin', hid'⟩
  · intro tid' rec' h'
    rw [hin] at h'
    rw [hnext]
    by_cases ht : tid' = tid
    · subst ht
      rw [alookup_aerase_self inv.inNodup] at h'
      exact Option.noConfusion h'
    · rw [alookup_aerase_ne _ ht] at h'
      exact inv.idLt tid' rec' h'
  · intro d hd
    rw [hdes] at hd
    rw [hnext]
    exact inv.desiredLt d hd
  · intro d hd
    rw [hdes] at hd
    rw [hout]
    by_cases ho : d.id = rec.id
    · rw [ho]
      exact alookup_aerase_self inv.outNodup
    · rw [alookup_aerase_ne _ ho]
      exact inv.desiredFresh d hd
  · rw [hdes]
    exact inv.desiredNodup

theorem msinv_replace {σ υ η : Type} {ms ms' : MultiStream σ υ η}
    {tid : Nat} {rec rec' : Substream σ υ}
    (inv : MSInv ms)
    (hrec : alookup ms.in_substreams tid = some rec)
    (hid : rec'.id = rec.id)
    (hin : ms'.in_substreams = aupdate ms.in_substreams tid rec')
    (hout : ms'.out_in_substreams_map = ms.out_in_substreams_map)
    (hnext : ms'.next_out_substream_id = ms.next_out_substream_id)
    (hdes : ms'.desired_out_substreams = ms.desired_out_substreams) :
    MSInv ms' := by
  refine ⟨?_, ?_, ?_, ?_, ?_, ?_, ?_, ?_, ?_⟩
  · rw [hin, akeys_aupdate_of_some _ hrec]
    exact inv.inNodup
  · rw [hout]; exact inv.outNodup
  · rw [hin, hout, length_aupdate_of_some _ hrec]
    exact inv.sizes
  · intro tid' rec'' h'
    rw [hin] at h'
    rw [hout]
    by_cases ht : tid' = tid
    · subst ht
      rw [alookup_aupdate_self] at h'
      cases h'
      rw [hid]
      exact inv.fwd _ rec hrec
    · rw [alookup_aupdate_ne _ _ ht] at h'
      exact inv.fwd tid' rec'' h'
  · intro oid tid' h'
    rw [hout] at h'
    rw [hin]
    obtain ⟨rec'', hin', hid'⟩ := inv.bwd oid tid' h'
    by_cases ht : tid' = tid
    · subst ht
      rw [hrec] at hin'
      cases hin'
      exact ⟨rec', alookup_aupdate_self _ _ _, by rw [hid, hid']⟩
    · exact ⟨rec'', by rw [alookup_aupdate_ne _ _ ht]; exact hin', hid'⟩
  · intro tid' rec'' h'
    rw [hin] at h'
    rw [hnext]
    by_cases ht : tid' = tid
    · subst ht
      rw [alookup_aupdate_self] at h'
      cases h'
      rw [hid]
      exact inv.idLt _ rec hrec
    · rw [alookup_aupdate_ne _ _ ht] at h'
      exact inv.idLt tid' rec'' h'
  · intro d hd
    rw [hdes] at hd
    rw [hnext]
    exact inv.desiredLt d hd
  · intro d hd
    rw [hdes] at hd
    rw [hout]
    exact inv.desiredFresh d hd
  · rw [hdes]
    exact inv.desiredNodup

/-! ### The driver loop preserves the substream identifier -/

/-- The record carried by a loop-iteration outcome has the given id. -/
def IterIdOk {σ υ η : Type} (o : IterOut σ υ η) (n : Nat) : Prop :=
  match o with
  | .fault => True
  | .done _ r _ _ => r.id = n
  | .again _ r _ => r.id = n

theorem srwFinish_id {σ ε η υ : Type} (api : InnerApi σ ε η υ)
    (pending : List η) (rec : Substream σ υ) (rw : RW) (ev : Option ε)
    (cl : Bool) : IterIdOk (srwFinish api pending rec rw ev cl) rec.id := by
  unfold srwFinish
  cases ev <;> dsimp only <;> split <;> try split
  all_goals dsimp [IterIdOk]

theorem srwFinish_id2 {σ ε η υ : Type} (api : InnerApi σ ε η υ)
    (pending : List η) (rec : Substream σ υ) (rw : RW) (ev : Option ε)
    (cl : Bool) {n : Nat} (h : rec.id = n) :
    IterIdOk (srwFinish api pending rec rw ev cl) n := by
  subst h
  exact srwFinish_id api pending rec rw ev cl

theorem srwIter_id {σ ε η υ : Type} (api : InnerApi σ ε η υ)
    (pending : List η) (rec : Substream σ υ) (rw : RW) :
    IterIdOk (srwIter api pending rec rw) rec.id := by
  unfold srwIter
  repeat' (first | split | dsimp only)
  all_goals
    first
      | trivial
      | exact rfl
      | exact srwFinish_id2 api pending _ _ _ _
          (by repeat' (first | split | dsimp only))

theorem srwLoop_id {σ ε η υ : Type} {api : InnerApi σ ε η υ} {fuel : Nat}
    {pending p : List η} {rec r : Substream σ υ} {rw w : RW} {ex : LoopExit}
    (h : srwLoop api fuel pending rec rw = some (p, r, w, ex)) :
    r.id = rec.id := by
  induction fuel generalizing pending rec rw with
  | zero => exact absurd h (by simp [srwLoop])
  | succ n ih =>
    unfold srwLoop at h
    cases hit : srwIter api pending rec rw with
    | fault => rw [hit] at h; exact Option.noConfusion h
    | done p' r' w' ex' =>
      rw [hit] at h
      have hid := srwIter_id api pending rec rw
      rw [hit] at hid
      cases h
      simpa [IterIdOk] using hid
    | again p' r' w' =>
      rw [hit] at h
      have h1 := ih h
      have hid := srwIter_id api pending rec rw
      rw [hit] at hid
      simp only [IterIdOk] at hid
      rw [h1, hid]

theorem rw_wake_fields (rw : RW) (t : Nat) :
    (RW.wake rw t).readBytes = rw.readBytes ∧
    (RW.wake rw t).writtenBytes = rw.writtenBytes ∧
    (RW.wake rw t).written = rw.written ∧
    (RW.wake rw t).incoming = rw.incoming := by
  unfold RW.wake
  cases rw.wakeUpAfter <;> simp

theorem pingHousekeeping_fields {σ ε η υ : Type} {api : InnerApi σ ε η υ}
    {ms ms1 : MultiStream σ υ η} {sid : Nat} {rec rec1 : Substream σ υ}
    {rw rw1 : RW}
    (h : pingHousekeeping api ms sid rec rw = some (ms1, rec1, rw1)) :
    ms1.pending_events = ms.pending_events ∧
    ms1.in_substreams = ms.in_substreams ∧
    ms1.out_in_substreams_map = ms.out_in_substreams_map ∧
    ms1.next_out_substream_id = ms.next_out_substream_id ∧
    ms1.desired_out_substreams = ms.desired_out_substreams ∧
    ms1.ping_substream = ms.ping_substream ∧
    rec1.id = rec.id ∧ rec1.read_buffer = rec.read_buffer ∧
    rec1.read_buffer_partial_read = rec.read_buffer_partial_read ∧
    rw1.readBytes = rw.readBytes ∧ rw1.writtenBytes = rw.writtenBytes ∧
    rw1.written = rw.written ∧ rw1.incoming = rw.incoming := by
  unfold pingHousekeeping at h
  split at h
  · split at h
    · cases hrec : rec.inner with
      | none => rw [hrec] at h; exact Option.noConfusion h
      | some i =>
        rw [hrec] at h
        dsimp only at h
        cases h
        refine ⟨rfl, rfl, rfl, rfl, rfl, rfl, rfl, rfl, rfl, ?_, ?_, ?_, ?_⟩
        · exact (rw_wake_fields rw _).1
        · exact (rw_wake_fields rw _).2.1
        · exact (rw_wake_fields rw _).2.2.1
        · exact (rw_wake_fields rw _).2.2.2
    · cases h
      refine ⟨rfl, rfl, rfl, rfl, rfl, rfl, rfl, rfl, rfl, ?_, ?_, ?_, ?_⟩
      · exact (rw_wake_fields rw _).1
      · exact (rw_wake_fields rw _).2.1
      · exact (rw_wake_fields rw _).2.2.1
      · exact (rw_wake_fields rw _).2.2.2
  · cases h
    exact ⟨rfl, rfl, rfl, rfl, rfl, rfl, rfl, rfl, rfl, rfl, rfl, rfl, rfl⟩

/-! ### Reachable states of the connection engine -/

/-- One externally-triggered operation of the connection engine. -/
inductive MSStep {σ ε η υ : Type} (api : InnerApi σ ε η υ) :
    MultiStream σ υ η → MultiStream σ υ η → Prop
  | addSub {ms ms' : MultiStream σ υ η} (id : Nat) (outbound : Bool)
      (h : add_substream api ms id outbound = some ms') : MSStep api ms ms'
  | resetSub {ms ms' : MultiStream σ υ η} (id : Nat)
      (h : reset_substream api ms id = some ms') : MSStep api ms ms'
  | readWriteSub {ms ms' : MultiStream σ υ η} (fuel id : Nat) (rw rw' : RW)
      (fate : SubstreamFate)
      (h : substream_read_write api fuel ms id rw = some (ms', rw', fate)) :
      MSStep api ms ms'
  | pullEv {ms : MultiStream σ υ η} : MSStep api ms (pull_event ms).2
  | addReq {ms : MultiStream σ υ η} (pn : String) (rq : Option Bytes)
      (t mrs : Nat) (ud : υ) :
      MSStep api ms (add_request api ms pn rq t mrs ud).1
  | openNotif {ms : MultiStream σ υ η} (pn : String) (mhs : Nat) (hs : Bytes)
      (t : Nat) (ud : υ) :
      MSStep api ms (open_notifications_substream api ms pn mhs hs t ud).1

/-- The states of the connection engine reachable from a fresh connection
through the operations above. -/
inductive MSReach {σ ε η υ : Type} (api : InnerApi σ ε η υ) :
    MultiStream σ υ η → Prop
  | init (config : MSConfig) : MSReach api (webrtc config)
  | step {ms ms' : MultiStream σ υ η} (hr : MSReach api ms)
      (hs : MSStep api ms ms') : MSReach api ms'

theorem msinv_webrtc {σ υ η : Type} (config : MSConfig) :
    MSInv (@webrtc σ υ η config) := by
  refine ⟨?_, ?_, ?_, ?_, ?_, ?_, ?_, ?_, ?_⟩ <;>
    simp [webrtc, akeys, alookup]

theorem msinv_add_substream {σ ε η υ : Type} {api : InnerApi σ ε η υ}
    {ms ms' : MultiStream σ υ η} {id : Nat} {outbound : Bool}
    (inv : MSInv ms) (h : add_substream api ms id outbound = some ms') :
    MSInv ms' := by
  unfold add_substream at h
  dsimp only at h
  split at h
  · exact Option.noConfusion h
  · rename_i substream ms1 heq
    split at h
    · exact Option.noConfusion h
    · rename_i hnone
      rw [Option.not_isSome_iff_eq_none] at hnone
      cases h
      split at heq
      · -- inbound branch
        simp only [Option.some.injEq, Prod.mk.injEq] at heq
        obtain ⟨h1, h2⟩ := heq
        subst h1
        subst h2
        refine msinv_insert inv rfl rfl (by dsimp; omega) (by dsimp; omega)
          (inv.out_lookup_ge_none (Nat.le_refl _)) hnone
          (fun d hd => hd) inv.desiredNodup ?_
        intro d hd he
        have := inv.desiredLt d hd
        dsimp at he
        omega
      · split at heq
        · -- ping-slot branch
          simp only [Option.some.injEq, Prod.mk.injEq] at heq
          obtain ⟨h1, h2⟩ := heq
          subst h1
          subst h2
          refine msinv_insert inv rfl rfl (by dsimp; omega) (by dsimp; omega)
            (inv.out_lookup_ge_none (Nat.le_refl _)) hnone
            (fun d hd => hd) inv.desiredNodup ?_
          intro d hd he
          have := inv.desiredLt d hd
          dsimp at he
          omega
        · -- pull from the desired queue
          split at heq
          · rename_i desired rest hdq
            simp only [Option.some.injEq, Prod.mk.injEq] at heq
            obtain ⟨h1, h2⟩ := heq
            subst h2
            rw [← h1]
            have hdmem : desired ∈ ms.desired_out_substreams := by
              rw [hdq]; exact List.mem_cons_self _ _
            have hnodup := inv.desiredNodup
            rw [hdq] at hnodup
            simp only [List.map_cons, List.nodup_cons] at hnodup
            refine msinv_insert inv rfl rfl (Nat.le_refl _)
              (inv.desiredLt desired hdmem)
              (inv.desiredFresh desired hdmem) hnone
              (fun d hd => by rw [hdq]; exact List.mem_cons_of_mem _ hd)
              hnodup.2 ?_
            intro d hd he
            exact hnodup.1 (he ▸ List.mem_map_of_mem Substream.id hd)
          · exact Option.noConfusion heq

theorem msinv_reset_substream {σ ε η υ : Type} {api : InnerApi σ ε η υ}
    {ms ms' : MultiStream σ υ η} {id : Nat}
    (inv : MSInv ms) (h : reset_substream api ms id = some ms') :
    MSInv ms' := by
  unfold reset_substream at h
  cases hrec : alookup ms.in_substreams id with
  | none => rw [hrec] at h; exact Option.noConfusion h
  | some rec =>
    rw [hrec] at h
    dsimp only at h
    have base : MSInv { ms with
        in_substreams := aerase ms.in_substreams id,
        out_in_substreams_map := aerase ms.out_in_substreams_map rec.id } :=
      msinv_erase inv hrec rfl rfl rfl rfl
    cases hi : rec.inner with
    | none => rw [hi] at h; exact Option.noConfusion h
    | some i =>
      rw [hi] at h
      dsimp only at h
      cases hev : api.reset i with
      | none =>
        rw [hev] at h
        cases h
        split
        · exact msinv_congr base rfl rfl rfl rfl
        · exact msinv_congr base rfl rfl rfl rfl
      | some ev =>
        rw [hev] at h
        dsimp only at h
        cases h
        split
        · exact msinv_congr base rfl rfl rfl rfl
        · exact msinv_congr base rfl rfl rfl rfl

theorem msinv_substream_read_write {σ ε η υ : Type} {api : InnerApi σ ε η υ}
    {ms ms' : MultiStream σ υ η} {fuel id : Nat} {rw rw' : RW}
    {fate : SubstreamFate}
    (inv : MSInv ms)
    (h : substream_read_write api fuel ms id rw = some (ms', rw', fate)) :
    MSInv ms' := by
  unfold substream_read_write at h
  cases hrec : alookup ms.in_substreams id with
  | none => rw [hrec] at h; exact Option.noConfusion h
  | some rec =>
    rw [hrec] at h
    dsimp only at h
    split at h
    · cases hph : pingHousekeeping api ms id rec rw with
      | none => rw [hph] at h; exact Option.noConfusion h
      | some t =>
        obtain ⟨ms1, rec1, rw1⟩ := t
        rw [hph] at h
        dsimp only at h
        obtain ⟨hpend, hin1, hout1, hnext1, hdes1, hping1, hid1, -⟩ :=
          pingHousekeeping_fields hph
        have inv1 : MSInv ms1 := msinv_congr inv hin1 hout1 hnext1 hdes1
        cases hl : srwLoop api fuel ms1.pending_events rec1 rw1 with
        | none => rw [hl] at h; exact Option.noConfusion h
        | some q =>
          obtain ⟨pending, rec2, rw2, ex⟩ := q
          rw [hl] at h
          have hid2 : rec2.id = rec.id := by rw [srwLoop_id hl, hid1]
          have hrec1 : alookup ms1.in_substreams id = some rec := by
            rw [hin1]; exact hrec
          cases ex with
          | contin =>
            dsimp only at h
            cases h
            exact msinv_replace inv1 hrec1 hid2 rfl rfl rfl rfl
          | resetKept =>
            dsimp only at h
            cases h
            exact msinv_replace inv1 hrec1 hid2 rfl rfl rfl rfl
          | resetRemoved =>
            dsimp only at h
            cases h
            refine msinv_erase inv1 hrec1 rfl ?_ rfl rfl
            rw [hid2]
    · exact Option.noConfusion h

theorem msinv_pull_event {σ υ η : Type} {ms : MultiStream σ υ η}
    (inv : MSInv ms) : MSInv (pull_event ms).2 := by
  unfold pull_event
  cases ms.pending_events with
  | nil => exact inv
  | cons e t => exact msinv_congr inv rfl rfl rfl rfl

theorem msinv_push_desired {σ υ η : Type} {ms ms' : MultiStream σ υ η}
    {d : Substream σ υ}
    (inv : MSInv ms)
    (hin : ms'.in_substreams = ms.in_substreams)
    (hout : ms'.out_in_substreams_map = ms.out_in_substreams_map)
    (hnext : ms'.next_out_substream_id = ms.next_out_substream_id + 1)
    (hdes : ms'.desired_out_substreams = ms.desired_out_substreams ++ [d])
    (hd : d.id = ms.next_out_substream_id) : MSInv ms' := by
  refine ⟨?_, ?_, ?_, ?_, ?_, ?_, ?_, ?_, ?_⟩
  · rw [hin]; exact inv.inNodup
  · rw [hout]; exact inv.outNodup
  · rw [hin, hout]; exact inv.sizes
  · intro tid rec h'
    rw [hin] at h'
    rw [hout]
    exact inv.fwd tid rec h'
  · intro oid tid h'
    rw [hout] at h'
    rw [hin]
    exact inv.bwd oid tid h'
  · intro tid rec h'
    rw [hin] at h'
    rw [hnext]
    have := inv.idLt tid rec h'
    omega
  · intro e he
    rw [hdes] at he
    rw [hnext]
    rcases List.mem_append.mp he with hm | hm
    · have := inv.desiredLt e hm
      omega
    · simp only [List.mem_singleton] at hm
      subst hm
      omega
  · intro e he
    rw [hdes] at he
    rw [hout]
    rcases List.mem_append.mp he with hm | hm
    · exact inv.desiredFresh e hm
    · simp only [List.mem_singleton] at hm
      subst hm
      rw [hd]
      exact inv.out_lookup_ge_none (Nat.le_refl _)
  · rw [hdes]
    simp only [List.map_append, List.map_cons, List.map_nil]
    rw [List.nodup_append]
    refine ⟨inv.desiredNodup, List.nodup_singleton _, ?_⟩
    intro a ha hb
    simp only [List.mem_singleton] at hb
    subst hb
    rw [hd] at ha
    simp only [List.mem_map] at ha
    obtain ⟨e, he, hide⟩ := ha
    have := inv.desiredLt e he
    omega

theorem msinv_add_request {σ ε η υ : Type} {api : InnerApi σ ε η υ}
    {ms : MultiStream σ υ η} {pn : String} {rq : Option Bytes} {t mrs : Nat}
    {ud : υ} (inv : MSInv ms) :
    MSInv (add_request api ms pn rq t mrs ud).1 :=
  msinv_push_desired inv rfl rfl rfl rfl rfl

theorem msinv_open_notifications {σ ε η υ : Type} {api : InnerApi σ ε η υ}
    {ms : MultiStream σ υ η} {pn : String} {mhs : Nat} {hs : Bytes} {t : Nat}
    {ud : υ} (inv : MSInv ms) :
    MSInv (open_notifications_substream api ms pn mhs hs t ud).1 :=
  msinv_push_desired inv rfl rfl rfl rfl rfl

theorem msreach_inv {σ ε η υ : Type} {api : InnerApi σ ε η υ}
    {ms : MultiStream σ υ η} (hr : MSReach api ms) : MSInv ms := by
  induction hr with
  | init config => exact msinv_webrtc config
  | step hr hs ih =>
    cases hs with
    | addSub id outbound h => exact msinv_add_substream ih h
    | resetSub id h => exact msinv_reset_substream ih h
    | readWriteSub fuel id rw rw' fate h =>
      exact msinv_substream_read_write ih h
    | pullEv => exact msinv_pull_event ih
    | addReq pn rq t mrs ud => exact msinv_add_request ih
    | openNotif pn mhs hs t ud => exact msinv_open_notifications ih

/-! ### Concrete instantiation used to evaluate the engine -/

/-- A trivial instantiation of the opaque inner-substream interface, used to
evaluate the connection engine on concrete inputs. -/
def demoApi : InnerApi Unit Unit Unit Unit :=
  { ingoing := fun _ => ()
    pingOut := fun _ => ()
    requestOut := fun _ _ _ _ => ()
    notificationsOut := fun _ _ _ _ => ()
    readWrite := fun _ _ _ _ =>
      { state := some (), event := none, readBytes := 0, written := [],
        closedWrite := false, wakeUpAfter := none }
    reset := fun _ => some ()
    queuePing := fun s _ _ => s
    mkEvent := fun _ ud _ => ((), ud) }

/-- A small concrete connection configuration. -/
def demoConfig : MSConfig :=
  { substreams_capacity := 4
    max_inbound_substreams := 4
    max_protocol_name_len := 16
    ping_protocol := "ping"
    ping_interval := 20
    ping_timeout := 10
    first_out_ping := 5
    ping_payloads := [[9]] }

/-! ### Claim C3 -/

/-- C3: in every reachable state of the connection engine, the number of
entries in in_substreams equals the number of entries in
out_in_substreams_map, and the two maps are mutual inverses over the current
substreams: out_in_substreams_map maps each substream record's outer id to
the transport id under which that record is stored; every operation
(add_substream, reset_substream, substream_read_write, and the rest)
preserves this. -/
theorem c3_substream_maps_mutual_inverse {σ ε η υ : Type}
    {api : InnerApi σ ε η υ} {ms : MultiStream σ υ η}
    (hr : MSReach api ms) :
    ms.in_substreams.length = ms.out_in_substreams_map.length ∧
    (∀ tid rec, alookup ms.in_substreams tid = some rec →
      alookup ms.out_in_substreams_map rec.id = some tid) ∧
    (∀ oid tid, alookup ms.out_in_substreams_map oid = some tid →
      ∃ rec, alookup ms.in_substreams tid = some rec ∧ rec.id = oid) :=
  ⟨(msreach_inv hr).sizes, (msreach_inv hr).fwd, (msreach_inv hr).bwd⟩

/-- Witness for C3: the invariant evaluated on the concrete state reached by
opening one inbound substream on a fresh connection. -/
theorem c3_substream_maps_mutual_inverse_witness :
    MSReach demoApi
      ((add_substream demoApi (webrtc demoConfig) 5 false).getD
        (webrtc demoConfig)) ∧
    ((add_substream demoApi (webrtc demoConfig) 5 false).getD
        (webrtc demoConfig)).in_substreams.length =
      ((add_substream demoApi (webrtc demoConfig) 5 false).getD
        (webrtc demoConfig)).out_in_substreams_map.length := by
  have hstep : add_substream demoApi (webrtc demoConfig) 5 false =
      some ((add_substream demoApi (webrtc demoConfig) 5 false).getD
        (webrtc demoConfig)) := rfl
  have hr := MSReach.step (MSReach.init demoConfig)
    (MSStep.addSub 5 false hstep)
  exact ⟨hr, (c3_substream_maps_mutual_inverse hr).1⟩

/-! ### Claim C4 -/

theorem srwIter_gate {σ ε η υ : Type} (api : InnerApi σ ε η υ)
    {pending : List η} (rec : Substream σ υ) (rw : RW)
    (hfull : MAX_PENDING_EVENTS ≤ pending.length) :
    srwIter api pending rec rw = IterOut.done pending rec rw .contin := by
  unfold srwIter
  rw [if_pos hfull]

/-- C4: whenever the pending-event queue already holds at least
MAX_PENDING_EVENTS events, substream_read_write returns Continue and does no
further work on the substream: no incoming bytes are ingested, the read
buffer is untouched, no bytes are emitted, and no events are queued. -/
theorem c4_backpressure_gate {σ ε η υ : Type} {api : InnerApi σ ε η υ}
    {ms ms' : MultiStream σ υ η} {fuel sid : Nat} {rw rw' : RW}
    {fate : SubstreamFate}
    (hfull : MAX_PENDING_EVENTS ≤ ms.pending_events.length)
    (hcall : substream_read_write api (fuel + 1) ms sid rw =
      some (ms', rw', fate)) :
    fate = SubstreamFate.Continue ∧
    ms'.pending_events = ms.pending_events ∧
    (alookup ms'.in_substreams sid).map Substream.read_buffer =
      (alookup ms.in_substreams sid).map Substream.read_buffer ∧
    rw'.readBytes = rw.readBytes ∧ rw'.writtenBytes = rw.writtenBytes ∧
    rw'.written = rw.written := by
  unfold substream_read_write at hcall
  cases hrec : alookup ms.in_substreams sid with
  | none => rw [hrec] at hcall; exact Option.noConfusion hcall
  | some rec =>
    rw [hrec] at hcall
    dsimp only at hcall
    split at hcall
    · cases hph : pingHousekeeping api ms sid rec rw with
      | none => rw [hph] at hcall; exact Option.noConfusion hcall
      | some t =>
        obtain ⟨ms1, rec1, rw1⟩ := t
        rw [hph] at hcall
        dsimp only at hcall
        obtain ⟨hpend, hin1, hout1, hnext1, hdes1, hping1, hid1, hbuf1, hpr1,
          hrb1, hwb1, hwr1, hic1⟩ := pingHousekeeping_fields hph
        have hloop : srwLoop api (fuel + 1) ms1.pending_events rec1 rw1 =
            some (ms1.pending_events, rec1, rw1, .contin) := by
          unfold srwLoop
          rw [srwIter_gate api rec1 rw1 (by rw [hpend]; exact hfull)]
        rw [hloop] at hcall
        dsimp only at hcall
        cases hcall
        refine ⟨rfl, hpend, ?_, hrb1, hwb1, hwr1⟩
        dsimp only
        simp [hin1, alookup_aupdate_self, hrec, hbuf1]
    · exact Option.noConfusion hcall

/-- A concrete substream record with outer id 0. -/
def recC4 : Substream Unit Unit :=
  { id := 0
    user_data := none
    inner := some ()
    read_buffer := []
    read_buffer_partial_read := 0
    remote_writing_side_closed := false
    local_writing_side_closed := false }

/-- A concrete connection state whose pending-event queue is full and which
holds one substream under transport id 2. -/
def msC4 : MultiStream Unit Unit Unit :=
  { pending_events := [(), (), (), ()]
    in_substreams := [(2, recC4)]
    out_in_substreams_map := [(0, 2)]
    next_out_substream_id := 1
    desired_out_substreams := []
    ping_substream := none
    next_ping := 5
    ping_payloads := []
    max_protocol_name_len := 16
    ping_protocol := "ping"
    ping_interval := 20
    ping_timeout := 10 }

/-- A concrete ReadWrite buffer with room and pending incoming data. -/
def rwC4 : RW :=
  { now := 0, incoming := some [1, 2, 3], outgoingAvail := some 100,
    readBytes := 0, writtenBytes := 0, written := [], wakeUpAfter := none }

/-- Witness for C4 at the concrete full-queue state. -/
theorem c4_backpressure_gate_witness :
    MAX_PENDING_EVENTS ≤ msC4.pending_events.length ∧
    substream_read_write demoApi 1 msC4 2 rwC4 =
      some (msC4, rwC4, SubstreamFate.Continue) ∧
    (SubstreamFate.Continue = SubstreamFate.Continue ∧
     msC4.pending_events = msC4.pending_events ∧
     (alookup msC4.in_substreams 2).map Substream.read_buffer =
       (alookup msC4.in_substreams 2).map Substream.read_buffer ∧
     rwC4.readBytes = rwC4.readBytes ∧ rwC4.writtenBytes = rwC4.writtenBytes ∧
     rwC4.written = rwC4.written) :=
  ⟨by decide, by decide,
   @c4_backpressure_gate Unit Unit Unit Unit demoApi msC4 msC4 0 2 rwC4 rwC4
     SubstreamFate.Continue (by decide) (by decide)⟩

/-! ### Claim C9 -/

/-- C9: the debug assertion in reset_substream in fact always fails for a
substream registered through add_substream: add_substream inserts the
record's outer id into out_in_substreams_map, so the removal performed by
reset_substream returns that entry, and the computed `_was_in` is `some`
(here `some 7`, the transport id), not `none` as the assertion
`_was_in.is_none()` demands. -/
theorem c9_reset_assert_eval :
    (add_substream demoApi (webrtc demoConfig) 7 false).bind
      (fun ms1 => reset_substream_was_in ms1 7) = some 7 ∧
    ∀ ms1, add_substream demoApi (webrtc demoConfig) 7 false = some ms1 →
      (reset_substream_was_in ms1 7).isNone = false := by
  constructor
  · decide
  · intro ms1 h
    have : ms1 = (add_substream demoApi (webrtc demoConfig) 7 false).getD
        (webrtc demoConfig) := by
      rw [← Option.some_inj]
      rw [← h]
      rfl
    subst this
    decide

/-! ### Claim C6 -/

/-- C6: on the ping substream, a ping payload is queued into the inner
substream state machine if and only if now is at least next_ping; when it is
queued its deadline is now plus ping_timeout, next_ping becomes now plus
ping_interval (the advance demanded by the spec), and wake_up_after is set
to the (new) next_ping; moreover across a whole substream_read_write call
next_ping is advanced exactly under that condition. -/
theorem c6_ping_housekeeping {σ ε η υ : Type} {api : InnerApi σ ε η υ}
    {ms : MultiStream σ υ η} {sid : Nat} {rec : Substream σ υ} {i : σ}
    {rw : RW}
    (hping : ms.ping_substream = some sid)
    (hrec : alookup ms.in_substreams sid = some rec)
    (hi : rec.inner = some i)
    (hwake : rw.wakeUpAfter = none) :
    (ms.next_ping ≤ rw.now →
      pingHousekeeping api ms sid rec rw = some
        ({ ms with next_ping := rw.now + ms.ping_interval,
                   ping_payloads := ms.ping_payloads.tail },
         { rec with inner := some (api.queuePing i
             (ms.ping_payloads.headD []) (rw.now + ms.ping_timeout)) },
         { rw with wakeUpAfter := some (rw.now + ms.ping_interval) })) ∧
    (¬ ms.next_ping ≤ rw.now →
      pingHousekeeping api ms sid rec rw =
        some (ms, rec, { rw with wakeUpAfter := some ms.next_ping })) ∧
    (∀ fuel (ms' : MultiStream σ υ η) (rw' : RW) (fate : SubstreamFate),
      substream_read_write api fuel ms sid rw = some (ms', rw', fate) →
      ms'.next_ping = (if ms.next_ping ≤ rw.now
        then rw.now + ms.ping_interval else ms.next_ping)) := by
  have hkOn : ms.next_ping ≤ rw.now →
      pingHousekeeping api ms sid rec rw = some
        ({ ms with next_ping := rw.now + ms.ping_interval,
                   ping_payloads := ms.ping_payloads.tail },
         { rec with inner := some (api.queuePing i
             (ms.ping_payloads.headD []) (rw.now + ms.ping_timeout)) },
         { rw with wakeUpAfter := some (rw.now + ms.ping_interval) }) := by
    intro hle
    unfold pingHousekeeping
    rw [if_pos hping, if_pos hle, hi]
    unfold RW.wake
    rw [hwake]
  have hkOff : ¬ ms.next_ping ≤ rw.now →
      pingHousekeeping api ms sid rec rw =
        some (ms, rec, { rw with wakeUpAfter := some ms.next_ping }) := by
    intro hgt
    unfold pingHousekeeping
    rw [if_pos hping, if_neg hgt]
    unfold RW.wake
    rw [hwake]
  refine ⟨hkOn, hkOff, ?_⟩
  intro fuel ms' rw' fate hcall
  unfold substream_read_write at hcall
  rw [hrec] at hcall
  dsimp only at hcall
  split at hcall
  · by_cases hle : ms.next_ping ≤ rw.now
    · rw [hkOn hle] at hcall
      dsimp only at hcall
      rw [if_pos hle]
      split at hcall
      · exact Option.noConfusion hcall
      · split at hcall <;> cases hcall <;> rfl
    · rw [hkOff hle] at hcall
      dsimp only at hcall
      rw [if_neg hle]
      split at hcall
      · exact Option.noConfusion hcall
      · split at hcall <;> cases hcall <;> rfl
  · exact Option.noConfusion hcall

/-- A concrete ping substream record with outer id 0. -/
def recC6 : Substream Unit Unit :=
  { id := 0
    user_data := none
    inner := some ()
    read_buffer := []
    read_buffer_partial_read := 0
    remote_writing_side_closed := false
    local_writing_side_closed := false }

/-- A concrete connection whose ping substream is transport id 3 and whose
next ping is due at instant 5. -/
def msC6 : MultiStream Unit Unit Unit :=
  { pending_events := []
    in_substreams := [(3, recC6)]
    out_in_substreams_map := [(0, 3)]
    next_out_substream_id := 1
    desired_out_substreams := []
    ping_substream := some 3
    next_ping := 5
    ping_payloads := [[9]]
    max_protocol_name_len := 16
    ping_protocol := "ping"
    ping_interval := 20
    ping_timeout := 10 }

/-- The concrete ReadWrite buffer for the ping call, at instant 5. -/
def rwC6 : RW :=
  { now := 5, incoming := some [], outgoingAvail := some 100,
    readBytes := 0, writtenBytes := 0, written := [], wakeUpAfter := none }

/-- The connection state after the ping call: next_ping advanced to 25 and
the first ping payload consumed. -/
def msC6out : MultiStream Unit Unit Unit :=
  { msC6 with next_ping := 25, ping_payloads := [] }

/-- The ReadWrite buffer after the ping call: woken up at the new next_ping. -/
def rwC6out : RW :=
  { rwC6 with wakeUpAfter := some 25 }

/-- Witness for C6: the ping housekeeping consequences evaluated at a
concrete due ping. -/
theorem c6_ping_housekeeping_witness :
    msC6.ping_substream = some 3 ∧
    alookup msC6.in_substreams 3 = some recC6 ∧
    recC6.inner = some () ∧ rwC6.wakeUpAfter = none ∧
    msC6out.next_ping =
      (if msC6.next_ping ≤ rwC6.now then rwC6.now + msC6.ping_interval
       else msC6.next_ping) := by
  refine ⟨rfl, by decide, rfl, rfl, ?_⟩
  exact (@c6_ping_housekeeping Unit Unit Unit Unit demoApi msC6 3 recC6 ()
    rwC6 rfl (by decide) rfl rfl).2.2 2
    msC6out rwC6out SubstreamFate.Continue (by decide)

/-! ### Claim C5 -/

theorem srwIter_frameA {σ ε η υ : Type} (api : InnerApi σ ε η υ)
    {pending : List η} {rec : Substream σ υ} {rw : RW} {frameSize : Nat}
    {flags : Option Nat} {msg : Bytes}
    (hlen : pending.length < MAX_PENDING_EVENTS)
    (hout : 6 ≤ rw.outgoingBufferAvailable)
    (hinc : rw.incoming = some [])
    (hparse : parseFrame rec.read_buffer = FrameParse.ok frameSize flags msg)
    (hfs : frameSize ≠ 0)
    (hfull : msg.length ≤ rec.read_buffer_partial_read) :
    srwIter api pending rec rw =
      (if isResetFlag flags then
        match rec.inner with
        | none => IterOut.fault
        | some i =>
          srwFinish api pending
            { rec with
                read_buffer_partial_read := 0
                read_buffer := rec.read_buffer.drop frameSize
                remote_writing_side_closed :=
                  if finOrReset flags then true
                  else rec.remote_writing_side_closed
                inner := none }
            (rw.advanceRead 0) (api.reset i) true
      else
        srwFinish api pending
          { rec with
              read_buffer_partial_read := 0
              read_buffer := rec.read_buffer.drop frameSize
              remote_writing_side_closed :=
                if finOrReset flags then true
                else rec.remote_writing_side_closed }
          (rw.advanceRead 0) none true) := by
  unfold srwIter
  rw [if_neg (by omega : ¬ MAX_PENDING_EVENTS ≤ pending.length)]
  rw [if_neg (by omega : ¬ rw.outgoingBufferAvailable < 6)]
  rw [hinc]
  dsimp only
  simp only [List.length_nil, Nat.zero_min, List.take_nil, List.append_nil]
  rw [hparse]
  dsimp only [FrameParse.triple]
  rw [if_pos ⟨hfs, hfull⟩]

/-- C5: when substream_read_write has a fully-delivered frame at the front
of the read buffer, it pops the frame and processes its flags: STOP_SENDING
(1) has no effect beyond popping; FIN (0) sets remote_writing_side_closed;
RESET_STREAM (2) additionally resets the inner state machine, queues the
event produced by the reset, removes the substream from both maps, and
makes substream_read_write return Reset. -/
theorem c5_frame_flags_processing {σ ε η υ : Type} {api : InnerApi σ ε η υ}
    {pending : List η} {rec : Substream σ υ} {i : σ} {rw : RW}
    {frameSize : Nat} {flags : Option Nat} {msg : Bytes}
    (hlen : pending.length < MAX_PENDING_EVENTS)
    (hout : 6 ≤ rw.outgoingBufferAvailable)
    (hinc : rw.incoming = some [])
    (hi : rec.inner = some i)
    (hparse : parseFrame rec.read_buffer = FrameParse.ok frameSize flags msg)
    (hfs : frameSize ≠ 0)
    (hfull : msg.length ≤ rec.read_buffer_partial_read) :
    (flags = some 1 → srwIter api pending rec rw = IterOut.again pending
      { rec with
          read_buffer_partial_read := 0
          read_buffer := rec.read_buffer.drop frameSize } (rw.advanceRead 0)) ∧
    (flags = some 0 → srwIter api pending rec rw = IterOut.again pending
      { rec with
          read_buffer_partial_read := 0
          read_buffer := rec.read_buffer.drop frameSize
          remote_writing_side_closed := true } (rw.advanceRead 0)) ∧
    (flags = some 2 →
      ∀ (ms : MultiStream σ υ η) (sid fuel : Nat),
        alookup ms.in_substreams sid = some rec →
        ms.pending_events = pending →
        ms.ping_substream ≠ some sid →
        substream_read_write api (fuel + 1) ms sid rw = some
          ({ ms with
              pending_events := pending ++
                (match api.reset i with
                  | none => []
                  | some e => [(api.mkEvent rec.id rec.user_data e).1])
              out_in_substreams_map := aerase ms.out_in_substreams_map rec.id
              in_substreams := aerase ms.in_substreams sid },
           rw.advanceRead 0, SubstreamFate.Reset)) := by
  refine ⟨?_, ?_, ?_⟩
  · intro h1
    subst h1
    rw [srwIter_frameA api hlen hout hinc hparse hfs hfull]
    rw [if_neg (by decide : ¬ isResetFlag (some 1) = true)]
    unfold srwFinish
    rw [hi]
    simp [finOrReset]
  · intro h0
    subst h0
    rw [srwIter_frameA api hlen hout hinc hparse hfs hfull]
    rw [if_neg (by decide : ¬ isResetFlag (some 0) = true)]
    unfold srwFinish
    rw [hi]
    simp [finOrReset]
  · intro h2
    subst h2
    intro ms sid fuel hms hpend hnp
    have hoav : rw.outgoingAvail.isSome = true := by
      cases ho : rw.outgoingAvail with
      | none =>
        exfalso
        unfold RW.outgoingBufferAvailable at hout
        rw [ho] at hout
        simp at hout
      | some a => rfl
    have hiter : srwIter api pending rec rw =
        IterOut.done
          (pending ++ (match api.reset i with
            | none => []
            | some e => [(api.mkEvent rec.id rec.user_data e).1]))
          (match api.reset i with
            | none =>
              { rec with
                  read_buffer_partial_read := 0
                  read_buffer := rec.read_buffer.drop frameSize
                  remote_writing_side_closed := true
                  inner := none }
            | some e =>
              { rec with
                  read_buffer_partial_read := 0
                  read_buffer := rec.read_buffer.drop frameSize
                  remote_writing_side_closed := true
                  inner := none
                  user_data := (api.mkEvent rec.id rec.user_data e).2 })
          (rw.advanceRead 0) LoopExit.resetRemoved := by
      rw [srwIter_frameA api hlen hout hinc hparse hfs hfull]
      rw [if_pos (by decide : isResetFlag (some 2) = true)]
      rw [hi]
      dsimp only
      unfold srwFinish
      cases hev : api.reset i with
      | none => simp [finOrReset]
      | some e => simp [finOrReset]
    unfold substream_read_write
    rw [hms]
    dsimp only
    have hcond : (rw.incoming.isSome && rw.outgoingAvail.isSome) = true := by
      rw [hinc, hoav]
      rfl
    rw [if_pos hcond]
    have hnpc : ms.ping_substream = some sid ↔ False := by
      simp [hnp]
    have hhk : pingHousekeeping api ms sid rec rw = some (ms, rec, rw) := by
      unfold pingHousekeeping
      rw [if_neg hnp]
    rw [hhk]
    have hloop : srwLoop api (fuel + 1) ms.pending_events rec rw =
        some ((pending ++ (match api.reset i with
            | none => []
            | some e => [(api.mkEvent rec.id rec.user_data e).1])),
          (match api.reset i with
            | none =>
              { rec with
                  read_buffer_partial_read := 0
                  read_buffer := rec.read_buffer.drop frameSize
                  remote_writing_side_closed := true
                  inner := none }
            | some e =>
              { rec with
                  read_buffer_partial_read := 0
                  read_buffer := rec.read_buffer.drop frameSize
                  remote_writing_side_closed := true
                  inner := none
                  user_data := (api.mkEvent rec.id rec.user_data e).2 }),
          rw.advanceRead 0, LoopExit.resetRemoved) := by
      unfold srwLoop
      rw [hpend, hiter]
    dsimp only
    rw [hloop]
    rw [if_neg hnp]
    cases hev : api.reset i <;> simp

/-- A concrete substream record holding one complete RESET_STREAM envelope
(length 2, field 1 set to flags 2) in its read buffer. -/
def recC5 : Substream Unit Unit :=
  { id := 0
    user_data := none
    inner := some ()
    read_buffer := [2, 8, 2]
    read_buffer_partial_read := 0
    remote_writing_side_closed := false
    local_writing_side_closed := false }

/-- The concrete connection holding that substream under transport id 5. -/
def msC5 : MultiStream Unit Unit Unit :=
  { pending_events := []
    in_substreams := [(5, recC5)]
    out_in_substreams_map := [(0, 5)]
    next_out_substream_id := 1
    desired_out_substreams := []
    ping_substream := none
    next_ping := 5
    ping_payloads := []
    max_protocol_name_len := 16
    ping_protocol := "ping"
    ping_interval := 20
    ping_timeout := 10 }

/-- The concrete ReadWrite buffer for the RESET_STREAM call. -/
def rwC5 : RW :=
  { now := 0, incoming := some [], outgoingAvail := some 100,
    readBytes := 0, writtenBytes := 0, written := [], wakeUpAfter := none }

/-- Witness for C5: a RESET_STREAM frame processed on a concrete substream
removes it and returns Reset, queueing the reset event. -/
theorem c5_frame_flags_processing_witness :
    ([] : List Unit).length < MAX_PENDING_EVENTS ∧
    6 ≤ rwC5.outgoingBufferAvailable ∧
    rwC5.incoming = some [] ∧
    recC5.inner = some () ∧
    parseFrame recC5.read_buffer = FrameParse.ok 3 (some 2) [] ∧
    (3 : Nat) ≠ 0 ∧
    substream_read_write demoApi 1 msC5 5 rwC5 = some
      ({ msC5 with
          pending_events := [()]
          out_in_substreams_map := []
          in_substreams := [] },
       rwC5.advanceRead 0, SubstreamFate.Reset) := by
  refine ⟨by decide, by decide, rfl, rfl, by decide, by decide, ?_⟩
  have h := (@c5_frame_flags_processing Unit Unit Unit Unit demoApi []
    recC5 () rwC5 3 (some 2) [] (by decide) (by decide) rfl rfl (by decide)
    (by decide) (by decide)).2.2 rfl msC5 5 0 (by decide) rfl (by decide)
  exact h

/-! ### The composite syncer (sync/all.rs)

Chain information values and compiled runtimes are opaque to all.rs; they are
modelled as type parameters `χ` and `ρ`.  The warp_sync and all_forks
strategy modules are not part of the source excerpt, so their state and the
operations all.rs invokes on them are modelled from the spec (sections 4.3
and 4.4); the optimistic strategy's request bookkeeping lives in the absent
verification_queue module and is modelled the same way.  The slabs of all.rs
are modelled as lists of optional values. -/

/-- A 32-byte block hash, modelled as bytes. -/
abbrev Hash := Bytes

/-! #### Slabs -/

/-- A slab is a list of slots. -/
abbrev Slab (α : Type) := List (Option α)

/-- Slab lookup. -/
def sget {α : Type} (s : Slab α) (k : Nat) : Option α := s.getD k none

/-- Slab slot assignment (the caller checks occupancy where the source
would panic on a vacant entry). -/
def sset {α : Type} (s : Slab α) (k : Nat) (v : α) : Slab α := s.set k (some v)

/-- Slab removal. -/
def sremove {α : Type} (s : Slab α) (k : Nat) : Slab α := s.set k none

/-- First occupied slab entry satisfying a predicate, with its index
(model of slab iter().find()). -/
def sfind {α : Type} : Slab α → (α → Bool) → Option (Nat × α)
  | [], _ => none
  | none :: t, p => (sfind t p).map (fun q => (q.1 + 1, q.2))
  | some v :: t, p =>
    if p v then some (0, v) else (sfind t p).map (fun q => (q.1 + 1, q.2))

/-! #### Request details and per-strategy extra data (all.rs) -/

/-- warp_sync::RequestDetail, as used by all.rs. -/
inductive WarpRequestDetail : Type
  | WarpSyncRequest (block_hash : Hash)
  | StorageGetMerkleProof (block_hash : Hash) (keys : List Bytes)
  | RuntimeCallMerkleProof (block_hash : Hash) (function_name : String)
      (parameter_vectored : Bytes)
  deriving DecidableEq

/-- RequestDetail of all.rs. -/
inductive RequestDetail : Type
  | BlocksRequest (first_block_height : Nat) (first_block_hash : Option Hash)
      (ascending : Bool) (num_blocks : Nat) (request_headers : Bool)
      (request_bodies : Bool) (request_justification : Bool)
  | GrandpaWarpSync (sync_start_block_hash : Hash)
  | StorageGet (block_hash : Hash) (keys : List Bytes)
  | RuntimeCallMerkleProof (block_hash : Hash) (function_name : String)
      (parameter_vectored : Bytes)
  deriving DecidableEq

/-- GrandpaWarpSyncSourceExtra of all.rs. -/
structure GrandpaWarpSyncSourceExtra (TSrc : Type) where
  outer_source_id : Nat
  user_data : TSrc
  finalized_block_height : Option Nat
  best_block_number : Nat
  best_block_hash : Hash
  deriving DecidableEq

/-- GrandpaWarpSyncRequestExtra of all.rs. -/
structure GrandpaWarpSyncRequestExtra (TRq : Type) where
  outer_request_id : Nat
  user_data : TRq
  deriving DecidableEq

/-- AllForksSourceExtra of all.rs. -/
structure AllForksSourceExtra (TSrc : Type) where
  outer_source_id : Nat
  user_data : TSrc
  deriving DecidableEq

/-- AllForksRequestExtra of all.rs. -/
structure AllForksRequestExtra (TRq : Type) where
  outer_request_id : Nat
  user_data : Option TRq
  deriving DecidableEq

/-- OptimisticSourceExtra of all.rs. -/
structure OptimisticSourceExtra (TSrc : Type) where
  user_data : TSrc
  best_block_hash : Hash
  outer_source_id : Nat
  deriving DecidableEq

/-- OptimisticRequestExtra of all.rs. -/
structure OptimisticRequestExtra (TRq : Type) where
  outer_request_id : Nat
  user_data : TRq
  deriving DecidableEq

/-! #### The warp-sync strategy (spec-modelled) -/

/-- Modelled from the spec: the in-progress warp-sync state machine of the
absent warp_sync.rs, reduced to what all.rs observes (section 4.4): sources
indexed by a strategy-local id holding the composite's extra data, and
in-progress requests as tuples of source id, request id, extra data and
request detail. -/
structure WarpInProgress (χ TSrcX TRqX : Type) where
  chain_information : χ
  sources : List (Nat × TSrcX)
  next_source_id : Nat
  requests : List (Nat × Nat × TRqX × WarpRequestDetail)
  next_request_id : Nat
  deriving DecidableEq

/-- warp_sync::Success, whose fields are manipulated directly by all.rs:
chain information, compiled runtime, the `:code` and `:heappages` storage
values, the ordered sources, and the in-progress requests (source id,
request id, extra data, detail). -/
structure WarpSuccess (χ ρ TSrcX TRqX : Type) where
  chain_information : χ
  finalized_runtime : ρ
  finalized_storage_code : Option Bytes
  finalized_storage_heap_pages : Option Bytes
  sources_ordered : List (Nat × TSrcX)
  in_progress_requests : List (Nat × Nat × TRqX × WarpRequestDetail)
  deriving DecidableEq

/-- warp_sync::WarpSync. -/
inductive WarpSync (χ ρ TSrcX TRqX : Type) : Type
  | InProgress (w : WarpInProgress χ TSrcX TRqX)
  | Finished (s : WarpSuccess χ ρ TSrcX TRqX)
  deriving DecidableEq

/-- Modelled from the spec: warp_sync_request_success / fail_request /
storage_get_success / runtime_call_merkle_proof_success of the absent
warp_sync.rs all consume the request with the given strategy-local id and
return its extra data. -/
def wFinishRequest {χ TSrcX TRqX : Type} (w : WarpInProgress χ TSrcX TRqX)
    (rid : Nat) : Option (WarpInProgress χ TSrcX TRqX × TRqX) :=
  match w.requests.find? (fun e => e.2.1 == rid) with
  | none => none
  | some e =>
    some ({ w with requests := w.requests.filter (fun q => q.2.1 != rid) },
          e.2.2.1)

/-- Modelled from the spec: remove_source of the absent warp_sync.rs
removes the source and returns its extra data together with its in-flight
requests. -/
def wRemoveSource {χ TSrcX TRqX : Type} (w : WarpInProgress χ TSrcX TRqX)
    (sid : Nat) :
    Option (WarpInProgress χ TSrcX TRqX × TSrcX ×
      List (Nat × Nat × TRqX × WarpRequestDetail)) :=
  match alookup w.sources sid with
  | none => none
  | some extra =>
    some ({ w with
             sources := aerase w.sources sid
             requests := w.requests.filter (fun e => e.1 != sid) },
          extra, w.requests.filter (fun e => e.1 == sid))

/-! #### The all-forks strategy (spec-modelled) -/

/-- all_forks::RequestParams. -/
structure RequestParams where
  first_block_hash : Hash
  first_block_height : Nat
  num_blocks : Nat
  deriving DecidableEq

/-- Modelled from the spec: one source of the absent all_forks.rs, as the
composite observes it: its user data (the composite's extra data), its best
block and the finality state forwarded by update_source_finality_state. -/
structure AFSource (TSrcX : Type) where
  user_data : TSrcX
  best_block_number : Nat
  best_block_hash : Hash
  finalized_block_height : Option Nat
  deriving DecidableEq

/-- Modelled from the spec: one in-flight ancestry-search request of the
absent all_forks.rs. -/
structure AFRequest (TRqX : Type) where
  rid : Nat
  src : Nat
  params : RequestParams
  user_data : TRqX
  deriving DecidableEq

/-- Modelled from the spec: the all-forks state machine of the absent
all_forks.rs, reduced to what all.rs observes: sources keyed by
strategy-local ids and in-flight requests (the disjoint block trees are out
of scope). -/
structure AllForksModel (χ TRqX TSrcX : Type) where
  chain_information : χ
  sources : List (Nat × AFSource TSrcX)
  next_source_id : Nat
  requests : List (AFRequest TRqX)
  next_request_id : Nat
  deriving DecidableEq

/-- Modelled from the spec: AllForksSync::new builds an empty machine from
the warp-produced chain information (capacities and policies do not affect
the observable state modelled here). -/
def afNew {χ TRqX TSrcX : Type} (chain_information : χ) :
    AllForksModel χ TRqX TSrcX :=
  { chain_information := chain_information
    sources := []
    next_source_id := 0
    requests := []
    next_request_id := 0 }

/-- Modelled from the spec: prepare_add_source followed by the add_source of
the returned continuation (every continuation variant allocates a fresh
strategy-local source id and records the source's best block). -/
def afAddSource {χ TRqX TSrcX : Type} (af : AllForksModel χ TRqX TSrcX)
    (best_block_number : Nat) (best_block_hash : Hash) (user_data : TSrcX) :
    AllForksModel χ TRqX TSrcX × Nat :=
  ({ af with
      sources := af.sources ++
        [(af.next_source_id,
          { user_data := user_data
            best_block_number := best_block_number
            best_block_hash := best_block_hash
            finalized_block_height := none })]
      next_source_id := af.next_source_id + 1 },
   af.next_source_id)

/-- The never-decreasing merge applied to a source's recorded finalized
height by the all-forks update_source_finality_state. -/
def afHeightMerge {TSrcX : Type} (height : Nat) (v : AFSource TSrcX) :
    AFSource TSrcX :=
  { v with
      finalized_block_height :=
        some (match v.finalized_block_height with
               | none => height
               | some b => max b height) }

/-- Modelled from the spec: update_source_finality_state of the absent
all_forks.rs records the given finalized height for the source, never
decreasing it. -/
def afUpdateSourceFinalityState {χ TRqX TSrcX : Type}
    (af : AllForksModel χ TRqX TSrcX) (sid : Nat) (height : Nat) :
    AllForksModel χ TRqX TSrcX :=
  { af with
      sources := af.sources.map (fun e =>
        if e.1 = sid then (e.1, afHeightMerge height e.2) else e) }

/-- Modelled from the spec: remove_source of the absent all_forks.rs
removes the source and returns its user data together with its in-flight
requests. -/
def afRemoveSource {χ TRqX TSrcX : Type} (af : AllForksModel χ TRqX TSrcX)
    (sid : Nat) :
    Option (AllForksModel χ TRqX TSrcX × TSrcX × List (AFRequest TRqX)) :=
  match alookup af.sources sid with
  | none => none
  | some st =>
    some ({ af with
             sources := aerase af.sources sid
             requests := af.requests.filter (fun r => r.src != sid) },
          st.user_data, af.requests.filter (fun r => r.src == sid))

/-- Modelled from the spec: the finish_ancestry_search / add_block folding
of a blocks response (or ancestry_search_failed on error) consumes the
request with the given strategy-local id and returns its extra data; the
block-tree effects are out of scope (all_forks.rs is absent) and the coarse
outcome is Queued, as in most branches of the fold in all.rs. -/
def afFinishAncestrySearchFold {χ TRqX TSrcX : Type}
    (af : AllForksModel χ TRqX TSrcX) (rid : Nat) :
    Option (AllForksModel χ TRqX TSrcX × TRqX) :=
  match af.requests.find? (fun r => r.rid == rid) with
  | none => none
  | some r =>
    some ({ af with requests := af.requests.filter (fun q => q.rid != rid) },
          r.user_data)

/-! #### The optimistic strategy -/

/-- optimistic::Config as filled in by all.rs (optimistic.rs names the last
field full_mode; the all.rs call sites use download_bodies). -/
structure OptimisticConfig (χ : Type) where
  chain_information : χ
  block_number_bytes : Nat
  sources_capacity : Nat
  blocks_capacity : Nat
  download_ahead_blocks : Nat
  download_bodies : Bool
  deriving DecidableEq

/-- Modelled from the spec: one in-flight request of the optimistic
strategy (the verification_queue module that stores them is absent). -/
structure OptRequest (TRqX : Type) where
  rid : Nat
  src : Nat
  user_data : TRqX
  deriving DecidableEq

/-- The optimistic strategy state: the configuration stored by
OptimisticSync::new of optimistic.rs (the chain field, a blocks tree, is
reduced to the chain information it is built from), plus sources and
requests; the request bookkeeping is modelled from the spec since the
verification_queue module is absent. -/
structure OptimisticSyncModel (χ TRqX TSrcX : Type) where
  chain_information : χ
  download_bodies : Bool
  download_ahead_blocks : Nat
  sources : List (Nat × TSrcX × Nat)
  next_source_id : Nat
  requests : List (OptRequest TRqX)
  next_request_id : Nat
  deriving DecidableEq

/-- OptimisticSync::new of optimistic.rs: stores the finalized chain
information and the configuration; no sources and no requests yet. -/
def optimisticNew {χ TRqX TSrcX : Type} (config : OptimisticConfig χ) :
    OptimisticSyncModel χ TRqX TSrcX :=
  { chain_information := config.chain_information
    download_bodies := config.download_bodies
    download_ahead_blocks := config.download_ahead_blocks
    sources := []
    next_source_id := 0
    requests := []
    next_request_id := 0 }

/-- Modelled from the spec: remove_source of optimistic.rs removes the
source and drains its in-flight requests. -/
def optRemoveSource {χ TRqX TSrcX : Type}
    (o : OptimisticSyncModel χ TRqX TSrcX) (sid : Nat) :
    Option (OptimisticSyncModel χ TRqX TSrcX × TSrcX ×
      List (OptRequest TRqX)) :=
  match alookup o.sources sid with
  | none => none
  | some st =>
    some ({ o with
             sources := aerase o.sources sid
             requests := o.requests.filter (fun r => r.src != sid) },
          st.1, o.requests.filter (fun r => r.src == sid))

/-- Modelled from the spec: finish_request_success / finish_request_failed
of optimistic.rs consume the request and return its extra data (the
verification queue holding it is absent). -/
def optFinishRequest {χ TRqX TSrcX : Type}
    (o : OptimisticSyncModel χ TRqX TSrcX) (rid : Nat) :
    Option (OptimisticSyncModel χ TRqX TSrcX × TRqX) :=
  match o.requests.find? (fun r => r.rid == rid) with
  | none => none
  | some r =>
    some ({ o with requests := o.requests.filter (fun q => q.rid != rid) },
          r.user_data)

/-! #### The composite AllSync -/

/-- SourceMapping of all.rs: the strategy-local id of an external source. -/
inductive SourceMapping : Type
  | GrandpaWarpSync (id : Nat)
  | AllForks (id : Nat)
  | Optimistic (id : Nat)
  deriving DecidableEq

/-- RequestMapping of all.rs: where an external request lives. -/
inductive RequestMapping (TRq : Type) : Type
  | Inline (src : Nat) (detail : RequestDetail) (user_data : TRq)
  | AllForks (id : Nat)
  | Optimistic (id : Nat)
  | WarpSync (id : Nat)
  deriving DecidableEq

/-- The Shared part of AllSync (all.rs): the two slabs mapping external ids
to strategy-local entries, plus the stored configuration. -/
structure Shared (TRq : Type) where
  sources : Slab SourceMapping
  requests : Slab (RequestMapping TRq)
  full_mode : Bool
  sources_capacity : Nat
  blocks_capacity : Nat
  max_disjoint_headers : Nat
  max_requests_per_block : Nat
  block_number_bytes : Nat
  allow_unknown_consensus_engines : Bool
  deriving DecidableEq

/-- AllSyncInner of all.rs. -/
inductive AllSyncInner (χ ρ TRq TSrc : Type) : Type
  | GrandpaWarpSync (inner : WarpSync χ ρ (GrandpaWarpSyncSourceExtra TSrc)
      (GrandpaWarpSyncRequestExtra TRq))
  | Optimistic (inner : OptimisticSyncModel χ (OptimisticRequestExtra TRq)
      (OptimisticSourceExtra TSrc))
  | AllForks (sync : AllForksModel χ (AllForksRequestExtra TRq)
      (AllForksSourceExtra TSrc))
  | Poisoned
  deriving DecidableEq

/-- The composite syncing state machine AllSync of all.rs. -/
structure AllSync (χ ρ TRq TSrc : Type) where
  inner : AllSyncInner χ ρ TRq TSrc
  shared : Shared TRq
  deriving DecidableEq

/-- Config of all.rs. -/
structure AllSyncConfig (χ : Type) where
  chain_information : χ
  block_number_bytes : Nat
  allow_unknown_consensus_engines : Bool
  sources_capacity : Nat
  blocks_capacity : Nat
  max_disjoint_headers : Nat
  max_requests_per_block : Nat
  download_ahead_blocks : Nat
  full_mode : Bool
  deriving DecidableEq

/-- warp_sync::WarpSyncInitError: the two variants matched exhaustively by
AllSync::new. -/
inductive WarpSyncInitError : Type
  | NotGrandpa
  | UnknownConsensus
  deriving DecidableEq

/-- AllSync::new of all.rs.  The absent warp_sync::start_warp_sync is
modelled from the spec as an explicit argument: it either yields an
in-progress warp machine or gives the chain information back together with
the initialization error. -/
def allSyncNew {χ ρ TRq TSrc : Type}
    (start_warp_sync : χ → Except (χ × WarpSyncInitError)
      (WarpInProgress χ (GrandpaWarpSyncSourceExtra TSrc)
        (GrandpaWarpSyncRequestExtra TRq)))
    (config : AllSyncConfig χ) : AllSync χ ρ TRq TSrc :=
  { inner :=
      if config.full_mode then
        AllSyncInner.Optimistic (optimisticNew
          { chain_information := config.chain_information
            block_number_bytes := config.block_number_bytes
            sources_capacity := config.sources_capacity
            blocks_capacity := config.blocks_capacity
            download_ahead_blocks := config.download_ahead_blocks
            download_bodies := config.full_mode })
      else
        match start_warp_sync config.chain_information with
        | Except.ok inner =>
          AllSyncInner.GrandpaWarpSync (WarpSync.InProgress inner)
        | Except.error (chain_information, _) =>
          AllSyncInner.Optimistic (optimisticNew
            { chain_information := chain_information
              block_number_bytes := config.block_number_bytes
              sources_capacity := config.sources_capacity
              blocks_capacity := config.blocks_capacity
              download_ahead_blocks := config.download_ahead_blocks
              download_bodies := false })
    shared :=
      { sources := []
        requests := []
        full_mode := config.full_mode
        sources_capacity := config.sources_capacity
        blocks_capacity := config.blocks_capacity
        max_disjoint_headers := config.max_disjoint_headers
        max_requests_per_block := config.max_requests_per_block
        block_number_bytes := config.block_number_bytes
        allow_unknown_consensus_engines :=
          config.allow_unknown_consensus_engines } }

/-- The conversion of warp-specific request details to composite
RequestDetail variants performed by
Shared::transition_grandpa_warp_sync_all_forks. -/
def convertWarpRequestDetail : WarpRequestDetail → RequestDetail
  | .WarpSyncRequest block_hash => .GrandpaWarpSync block_hash
  | .StorageGetMerkleProof block_hash keys => .StorageGet block_hash keys
  | .RuntimeCallMerkleProof block_hash function_name parameter_vectored =>
    .RuntimeCallMerkleProof block_hash function_name parameter_vectored

/-- The slab search performed for each converted request: find the external
source entry that maps to the given warp-strategy source id. -/
def warpSourcePred (source_id : Nat) : SourceMapping → Bool
  | SourceMapping.GrandpaWarpSync s => s == source_id
  | _ => false

/-- The in-progress-requests loop of
Shared::transition_grandpa_warp_sync_all_forks: each warp request is
re-written in place in the requests slab as an Inline mapping, keyed by the
external source id found for its warp source id. -/
def transitionRequests {TRq TRqX : Type}
    (outerOf : TRqX → Nat) (payloadOf : TRqX → TRq)
    (sources : Slab SourceMapping) :
    Slab (RequestMapping TRq) → List (Nat × Nat × TRqX × WarpRequestDetail) →
    Option (Slab (RequestMapping TRq))
  | requests, [] => some requests
  | requests, (source_id, _, extra, detail) :: rest =>
    let detail2 := convertWarpRequestDetail detail
    match sfind sources (warpSourcePred source_id) with
    | none => none
    | some (outer_src, _) =>
      if (sget requests (outerOf extra)).isSome then
        transitionRequests outerOf payloadOf sources
          (sset requests (outerOf extra)
            (RequestMapping.Inline outer_src detail2 (payloadOf extra)))
          rest
      else none

/-- The sources loop of Shared::transition_grandpa_warp_sync_all_forks:
each warp source is added to the all-forks machine (keeping its external
source id in its extra data), its previously-reported finalized height is
forwarded, and its slab slot is re-keyed to the all-forks id. -/
def transitionSources {χ TRq TSrc : Type} :
    Slab SourceMapping →
    AllForksModel χ (AllForksRequestExtra TRq) (AllForksSourceExtra TSrc) →
    List (Nat × GrandpaWarpSyncSourceExtra TSrc) →
    Option (Slab SourceMapping ×
      AllForksModel χ (AllForksRequestExtra TRq) (AllForksSourceExtra TSrc))
  | sources, af, [] => some (sources, af)
  | sources, af, (_, source) :: rest =>
    let source_user_data : AllForksSourceExtra TSrc :=
      { user_data := source.user_data
        outer_source_id := source.outer_source_id }
    let step := afAddSource af source.best_block_number source.best_block_hash
      source_user_data
    let af2 :=
      match source.finalized_block_height with
      | some height => afUpdateSourceFinalityState step.1 step.2 height
      | none => step.1
    if (sget sources source.outer_source_id).isSome then
      transitionSources
        (sset sources source.outer_source_id (SourceMapping.AllForks step.2))
        af2 rest
    else none

/-- Shared::transition_grandpa_warp_sync_all_forks of all.rs: build a fresh
all-forks machine from the warp-produced chain information, convert every
in-progress warp request to an Inline mapping, then re-key every source. -/
def transition_grandpa_warp_sync_all_forks {χ ρ TRq TSrc : Type}
    (shared : Shared TRq)
    (grandpa : WarpSuccess χ ρ (GrandpaWarpSyncSourceExtra TSrc)
      (GrandpaWarpSyncRequestExtra TRq)) :
    Option (Shared TRq ×
      AllForksModel χ (AllForksRequestExtra TRq) (AllForksSourceExtra TSrc) ×
      ρ × Option Bytes × Option Bytes) :=
  let all_forks := afNew grandpa.chain_information
  match transitionRequests
      (fun e => e.outer_request_id) (fun e => e.user_data)
      shared.sources shared.requests grandpa.in_progress_requests with
  | none => none
  | some requests2 =>
    match transitionSources shared.sources all_forks
        grandpa.sources_ordered with
    | none => none
    | some (sources2, af2) =>
      some ({ shared with sources := sources2, requests := requests2 },
        af2, grandpa.finalized_runtime, grandpa.finalized_storage_code,
        grandpa.finalized_storage_heap_pages)

/-- ProcessOne of all.rs, restricted to the variants the modelled
strategies produce: the verification steps of the strategy modules are out
of scope, so their process_one is modelled from the spec as idle, and the
composite yields either AllSync or the warp-finished transition. -/
inductive ProcessOne (χ ρ TRq TSrc : Type) : Type
  | AllSync (sync : AllSync χ ρ TRq TSrc)
  | WarpSyncFinished (sync : AllSync χ ρ TRq TSrc)
      (finalized_block_runtime : ρ)
      (finalized_storage_code : Option Bytes)
      (finalized_storage_heap_pages : Option Bytes)
  deriving DecidableEq

/-- AllSync::process_one of all.rs: when the warp strategy has finished,
the warp-to-all-forks transition runs in this single call and yields
ProcessOne::WarpSyncFinished carrying the runtime and the storage values. -/
def process_one {χ ρ TRq TSrc : Type} (sync : AllSync χ ρ TRq TSrc) :
    Option (ProcessOne χ ρ TRq TSrc) :=
  match sync.inner with
  | AllSyncInner.GrandpaWarpSync (WarpSync.InProgress w) =>
    some (ProcessOne.AllSync
      { sync with inner := AllSyncInner.GrandpaWarpSync (WarpSync.InProgress w) })
  | AllSyncInner.GrandpaWarpSync (WarpSync.Finished success) =>
    match transition_grandpa_warp_sync_all_forks sync.shared success with
    | none => none
    | some (shared2, af, runtime, code, heap_pages) =>
      some (ProcessOne.WarpSyncFinished
        { inner := AllSyncInner.AllForks af, shared := shared2 }
        runtime code heap_pages)
  | AllSyncInner.AllForks af =>
    some (ProcessOne.AllSync { sync with inner := AllSyncInner.AllForks af })
  | AllSyncInner.Optimistic o =>
    some (ProcessOne.AllSync { sync with inner := AllSyncInner.Optimistic o })
  | AllSyncInner.Poisoned => none

/-- ResponseOutcome of all.rs. -/
inductive ResponseOutcome : Type
  | Outdated
  | Queued
  | NotFinalizedChain (discarded_unverified_block_headers : List Bytes)
  | AllAlreadyInChain
  deriving DecidableEq

/-- BlockRequestSuccessBlock of all.rs (justifications are engine id plus
body). -/
structure BlockRequestSuccessBlock (TBl : Type) where
  scale_encoded_header : Bytes
  scale_encoded_justifications : List (Bytes × Bytes)
  scale_encoded_extrinsics : List Bytes
  user_data : TBl
  deriving DecidableEq

/-- warp_sync::WarpSyncFragment. -/
structure WarpSyncFragment where
  scale_encoded_header : Bytes
  scale_encoded_justification : Bytes
  deriving DecidableEq

/-- AllSync::blocks_request_response of all.rs: the request is removed from
the requests slab; an Inline mapping yields the payload with Outdated; the
warp strategy panics (it never starts block requests); the all-forks and
optimistic strategies fold the response into their queues. -/
def blocks_request_response {χ ρ TRq TSrc TBl : Type}
    (sync : AllSync χ ρ TRq TSrc) (request_id : Nat)
    (_blocks : Except Unit (List (BlockRequestSuccessBlock TBl))) :
    Option (AllSync χ ρ TRq TSrc × TRq × ResponseOutcome) :=
  match sget sync.shared.requests request_id with
  | none => none
  | some request =>
    let shared2 :=
      { sync.shared with requests := sremove sync.shared.requests request_id }
    match sync.inner, request with
    | _, RequestMapping.Inline _ _ user_data =>
      some ({ sync with shared := shared2 }, user_data,
        ResponseOutcome.Outdated)
    | AllSyncInner.GrandpaWarpSync _, _ => none
    | AllSyncInner.AllForks af, RequestMapping.AllForks inner_rid =>
      match afFinishAncestrySearchFold af inner_rid with
      | none => none
      | some (af2, extra) =>
        match extra.user_data with
        | none => none
        | some u =>
          some ({ inner := AllSyncInner.AllForks af2, shared := shared2 },
            u, ResponseOutcome.Queued)
    | AllSyncInner.Optimistic o, RequestMapping.Optimistic inner_rid =>
      match optFinishRequest o inner_rid with
      | none => none
      | some (o2, extra) =>
        some ({ inner := AllSyncInner.Optimistic o2, shared := shared2 },
          extra.user_data, ResponseOutcome.Queued)
    | _, _ => none

/-- AllSync::grandpa_warp_sync_response_inner of all.rs: in-progress warp
requests are consumed with outcome Queued; warp-finished requests are
dequeued from in_progress_requests with outcome Outdated; an Inline mapping
yields the payload with outcome Queued (the source notes this outcome with
a TODO). -/
def grandpa_warp_sync_response_inner {χ ρ TRq TSrc : Type}
    (sync : AllSync χ ρ TRq TSrc) (request_id : Nat)
    (_response : Option (List WarpSyncFragment × Bool)) :
    Option (AllSync χ ρ TRq TSrc × TRq × ResponseOutcome) :=
  match sget sync.shared.requests request_id with
  | none => none
  | some request =>
    let shared2 :=
      { sync.shared with requests := sremove sync.shared.requests request_id }
    match sync.inner, request with
    | AllSyncInner.GrandpaWarpSync (WarpSync.InProgress w),
      RequestMapping.WarpSync rid =>
      match wFinishRequest w rid with
      | none => none
      | some (w2, extra) =>
        some ({ inner := AllSyncInner.GrandpaWarpSync (WarpSync.InProgress w2),
                shared := shared2 },
          extra.user_data, ResponseOutcome.Queued)
    | AllSyncInner.GrandpaWarpSync (WarpSync.Finished s),
      RequestMapping.WarpSync rid =>
      match s.in_progress_requests.find? (fun e => e.2.1 == rid) with
      | none => none
      | some e =>
        let s2 := { s with in_progress_requests := s.in_progress_requests.filter (fun q => q.2.1 != rid) }
        some ({ inner := AllSyncInner.GrandpaWarpSync (WarpSync.Finished s2),
                shared := shared2 },
          e.2.2.1.user_data, ResponseOutcome.Outdated)
    | _, RequestMapping.Inline _ _ user_data =>
      some ({ sync with shared := shared2 }, user_data,
        ResponseOutcome.Queued)
    | _, _ => none

/-- AllSync::grandpa_warp_sync_response_ok of all.rs. -/
def grandpa_warp_sync_response_ok {χ ρ TRq TSrc : Type}
    (sync : AllSync χ ρ TRq TSrc) (request_id : Nat)
    (fragments : List WarpSyncFragment) (is_finished : Bool) :
    Option (AllSync χ ρ TRq TSrc × TRq × ResponseOutcome) :=
  grandpa_warp_sync_response_inner sync request_id
    (some (fragments, is_finished))

/-- AllSync::grandpa_warp_sync_response_err of all.rs. -/
def grandpa_warp_sync_response_err {χ ρ TRq TSrc : Type}
    (sync : AllSync χ ρ TRq TSrc) (request_id : Nat) :
    Option (AllSync χ ρ TRq TSrc × TRq × ResponseOutcome) :=
  grandpa_warp_sync_response_inner sync request_id none

/-- AllSync::storage_get_response of all.rs: warp in-progress requests are
consumed (success or failure) with outcome Queued; warp-finished requests
are dequeued with Outdated; an Inline mapping yields the payload with
outcome Queued (a source TODO). -/
def storage_get_response {χ ρ TRq TSrc : Type}
    (sync : AllSync χ ρ TRq TSrc) (request_id : Nat)
    (_response : Except Unit Bytes) :
    Option (AllSync χ ρ TRq TSrc × TRq × ResponseOutcome) :=
  match sget sync.shared.requests request_id with
  | none => none
  | some request =>
    let shared2 :=
      { sync.shared with requests := sremove sync.shared.requests request_id }
    match sync.inner, request with
    | AllSyncInner.GrandpaWarpSync (WarpSync.InProgress w),
      RequestMapping.WarpSync rid =>
      match wFinishRequest w rid with
      | none => none
      | some (w2, extra) =>
        some ({ inner := AllSyncInner.GrandpaWarpSync (WarpSync.InProgress w2),
                shared := shared2 },
          extra.user_data, ResponseOutcome.Queued)
    | AllSyncInner.GrandpaWarpSync (WarpSync.Finished s),
      RequestMapping.WarpSync rid =>
      match s.in_progress_requests.find? (fun e => e.2.1 == rid) with
      | none => none
      | some e =>
        let s2 := { s with in_progress_requests := s.in_progress_requests.filter (fun q => q.2.1 != rid) }
        some ({ inner := AllSyncInner.GrandpaWarpSync (WarpSync.Finished s2),
                shared := shared2 },
          e.2.2.1.user_data, ResponseOutcome.Outdated)
    | _, RequestMapping.Inline _ _ user_data =>
      some ({ sync with shared := shared2 }, user_data,
        ResponseOutcome.Queued)
    | _, _ => none

/-- AllSync::call_proof_response of all.rs: same dispatch as
storage_get_response. -/
def call_proof_response {χ ρ TRq TSrc : Type}
    (sync : AllSync χ ρ TRq TSrc) (request_id : Nat)
    (_response : Except Unit Bytes) :
    Option (AllSync χ ρ TRq TSrc × TRq × ResponseOutcome) :=
  match sget sync.shared.requests request_id with
  | none => none
  | some request =>
    let shared2 :=
      { sync.shared with requests := sremove sync.shared.requests request_id }
    match sync.inner, request with
    | AllSyncInner.GrandpaWarpSync (WarpSync.InProgress w),
      RequestMapping.WarpSync rid =>
      match wFinishRequest w rid with
      | none => none
      | some (w2, extra) =>
        some ({ inner := AllSyncInner.GrandpaWarpSync (WarpSync.InProgress w2),
                shared := shared2 },
          extra.user_data, ResponseOutcome.Queued)
    | AllSyncInner.GrandpaWarpSync (WarpSync.Finished s),
      RequestMapping.WarpSync rid =>
      match s.in_progress_requests.find? (fun e => e.2.1 == rid) with
      | none => none
      | some e =>
        let s2 := { s with in_progress_requests := s.in_progress_requests.filter (fun q => q.2.1 != rid) }
        some ({ inner := AllSyncInner.GrandpaWarpSync (WarpSync.Finished s2),
                shared := shared2 },
          e.2.2.1.user_data, ResponseOutcome.Outdated)
    | _, RequestMapping.Inline _ _ user_data =>
      some ({ sync with shared := shared2 }, user_data,
        ResponseOutcome.Queued)
    | _, _ => none

/-- AllSync::update_source_finality_state of all.rs: under the warp
strategy (in progress or finished), the source's recorded finalized height
becomes the maximum of its previous value and the new one; under the
all-forks strategy the update is delegated; the optimistic strategy
ignores it. -/
def update_source_finality_state {χ ρ TRq TSrc : Type}
    (sync : AllSync χ ρ TRq TSrc) (source_id : Nat)
    (finalized_block_height : Nat) : Option (AllSync χ ρ TRq TSrc) :=
  match sget sync.shared.sources source_id with
  | none => none
  | some mapping =>
    match sync.inner, mapping with
    | AllSyncInner.AllForks af, SourceMapping.AllForks sid =>
      let af2 := afUpdateSourceFinalityState af sid finalized_block_height
      some { sync with inner := AllSyncInner.AllForks af2 }
    | AllSyncInner.Optimistic o, _ =>
      some { sync with inner := AllSyncInner.Optimistic o }
    | AllSyncInner.GrandpaWarpSync (WarpSync.InProgress w),
      SourceMapping.GrandpaWarpSync sid =>
      match alookup w.sources sid with
      | none => none
      | some extra =>
        let h := some (match extra.finalized_block_height with
                        | none => finalized_block_height
                        | some b => max b finalized_block_height)
        let w2 := { w with sources := aupdate w.sources sid { extra with finalized_block_height := h } }
        let inner2 : AllSyncInner χ ρ TRq TSrc := AllSyncInner.GrandpaWarpSync (WarpSync.InProgress w2)
        some { sync with inner := inner2 }
    | AllSyncInner.GrandpaWarpSync (WarpSync.Finished s),
      SourceMapping.GrandpaWarpSync sid =>
      match alookup s.sources_ordered sid with
      | none => none
      | some extra =>
        let h := some (match extra.finalized_block_height with
                        | none => finalized_block_height
                        | some b => max b finalized_block_height)
        let s2 := { s with sources_ordered := aupdate s.sources_ordered sid { extra with finalized_block_height := h } }
        some { sync with inner := AllSyncInner.GrandpaWarpSync (WarpSync.Finished s2) }
    | _, _ => none

/-- The per-request removal loop of AllSync::remove_source: every returned
strategy request is removed from the shared requests slab and reported as
its external request id plus its user payload. -/
def removeSharedRequests {TRq : Type} :
    Slab (RequestMapping TRq) → List (Nat × Option TRq) →
    Option (Slab (RequestMapping TRq) × List (Nat × TRq))
  | requests, [] => some (requests, [])
  | requests, (outer, payload) :: rest =>
    match sget requests outer with
    | none => none
    | some _ =>
      match payload with
      | none => none
      | some u =>
        match removeSharedRequests (sremove requests outer) rest with
        | none => none
        | some (requests2, pairs) => some (requests2, (outer, u) :: pairs)

/-- AllSync::remove_source of all.rs: the source's slab slot is removed and
the strategy's in-flight requests of that source are drained out of the
requests slab and returned; Inline requests are left in place (a source
TODO). -/
def remove_source {χ ρ TRq TSrc : Type}
    (sync : AllSync χ ρ TRq TSrc) (source_id : Nat) :
    Option (AllSync χ ρ TRq TSrc × TSrc × List (Nat × TRq)) :=
  match sget sync.shared.sources source_id with
  | none => none
  | some mapping =>
    let shared1 :=
      { sync.shared with sources := sremove sync.shared.sources source_id }
    match sync.inner, mapping with
    | AllSyncInner.AllForks af, SourceMapping.AllForks sid =>
      match afRemoveSource af sid with
      | none => none
      | some (af2, extra, reqs) =>
        match removeSharedRequests shared1.requests
            (reqs.map (fun r =>
              (r.user_data.outer_request_id, r.user_data.user_data))) with
        | none => none
        | some (requests2, pairs) =>
          some ({ inner := AllSyncInner.AllForks af2,
                  shared := { shared1 with requests := requests2 } },
            extra.user_data, pairs)
    | AllSyncInner.Optimistic o, SourceMapping.Optimistic sid =>
      match optRemoveSource o sid with
      | none => none
      | some (o2, extra, reqs) =>
        match removeSharedRequests shared1.requests
            (reqs.map (fun r =>
              (r.user_data.outer_request_id, some r.user_data.user_data))) with
        | none => none
        | some (requests2, pairs) =>
          some ({ inner := AllSyncInner.Optimistic o2,
                  shared := { shared1 with requests := requests2 } },
            extra.user_data, pairs)
    | AllSyncInner.GrandpaWarpSync (WarpSync.InProgress w),
      SourceMapping.GrandpaWarpSync sid =>
      match wRemoveSource w sid with
      | none => none
      | some (w2, extra, reqs) =>
        match removeSharedRequests shared1.requests
            (reqs.map (fun r =>
              (r.2.2.1.outer_request_id, some r.2.2.1.user_data))) with
        | none => none
        | some (requests2, pairs) =>
          some ({ inner := AllSyncInner.GrandpaWarpSync (WarpSync.InProgress w2),
                  shared := { shared1 with requests := requests2 } },
            extra.user_data, pairs)
    | AllSyncInner.GrandpaWarpSync (WarpSync.Finished s),
      SourceMapping.GrandpaWarpSync sid =>
      match alookup s.sources_ordered sid with
      | none => none
      | some extra =>
        let reqs_of := s.in_progress_requests.filter (fun e => e.1 == sid)
        let rest := s.in_progress_requests.filter (fun e => e.1 != sid)
        match removeSharedRequests shared1.requests
            (reqs_of.map (fun r =>
              (r.2.2.1.outer_request_id, some r.2.2.1.user_data))) with
        | none => none
        | some (requests2, pairs) =>
          some ({ inner := AllSyncInner.GrandpaWarpSync (WarpSync.Finished
                    { s with
                        sources_ordered := aerase s.sources_ordered sid
                        in_progress_requests := rest }),
                  shared := { shared1 with requests := requests2 } },
            extra.user_data, pairs)
    | _, _ => none

/-! ### Slab lemmas -/

theorem sget_sset_self {α : Type} {s : Slab α} {k : Nat} (v : α)
    (h : (sget s k).isSome) : sget (sset s k v) k = some v := by
  induction s generalizing k with
  | nil => simp [sget] at h
  | cons a t ih =>
    cases k with
    | zero => simp [sget, sset]
    | succ n =>
      simp only [sget, sset, List.getD_cons_succ, List.set_cons_succ] at h ⊢
      exact ih h

theorem sget_sset_ne {α : Type} (s : Slab α) {k j : Nat} (v : α)
    (h : k ≠ j) : sget (sset s k v) j = sget s j := by
  induction s generalizing k j with
  | nil => simp [sget, sset]
  | cons a t ih =>
    cases k with
    | zero =>
      cases j with
      | zero => exact absurd rfl h
      | succ m => simp [sget, sset]
    | succ n =>
      cases j with
      | zero => simp [sget, sset]
      | succ m =>
        simp only [sget, sset, List.getD_cons_succ, List.set_cons_succ]
        exact ih (fun hh => h (by omega))

theorem sget_sset_isSome {α : Type} {s : Slab α} {k j : Nat} (v : α)
    (h : (sget s j).isSome) : (sget (sset s k v) j).isSome := by
  by_cases hkj : k = j
  · subst hkj
    rw [sget_sset_self v h]
    rfl
  · rw [sget_sset_ne s v hkj]
    exact h

theorem sget_sremove_self {α : Type} (s : Slab α) (k : Nat) :
    sget (sremove s k) k = none := by
  induction s generalizing k with
  | nil => simp [sget, sremove]
  | cons a t ih =>
    cases k with
    | zero => simp [sget, sremove]
    | succ n =>
      simp only [sget, sremove, List.getD_cons_succ, List.set_cons_succ]
      exact ih n

theorem sget_sremove_ne {α : Type} (s : Slab α) {k j : Nat}
    (h : k ≠ j) : sget (sremove s k) j = sget s j := by
  induction s generalizing k j with
  | nil => simp [sget, sremove]
  | cons a t ih =>
    cases k with
    | zero =>
      cases j with
      | zero => exact absurd rfl h
      | succ m => simp [sget, sremove]
    | succ n =>
      cases j with
      | zero => simp [sget, sremove]
      | succ m =>
        simp only [sget, sremove, List.getD_cons_succ, List.set_cons_succ]
        exact ih (fun hh => h (by omega))

theorem length_sset {α : Type} (s : Slab α) (k : Nat) (v : α) :
    (sset s k v).length = s.length := List.length_set s k (some v)

/-! ### Claim C7: initial strategy selection -/

/-- **C7**: AllSync::new selects the initial strategy: with full_mode it
starts Optimistic (bodies downloaded); otherwise it starts the warp
strategy when warp initialization succeeds, and on a NotGrandpa or
UnknownConsensus initialization error (the only two variants) it falls back
to Optimistic built from the chain information given back by the failed
initialization, with bodies not downloaded. -/
theorem c7_initial_strategy_selection {χ ρ TRq TSrc : Type}
    (start_warp_sync : χ → Except (χ × WarpSyncInitError)
      (WarpInProgress χ (GrandpaWarpSyncSourceExtra TSrc)
        (GrandpaWarpSyncRequestExtra TRq)))
    (config : AllSyncConfig χ) :
    (config.full_mode = true →
      (@allSyncNew χ ρ TRq TSrc start_warp_sync config).inner =
        AllSyncInner.Optimistic (optimisticNew
          { chain_information := config.chain_information
            block_number_bytes := config.block_number_bytes
            sources_capacity := config.sources_capacity
            blocks_capacity := config.blocks_capacity
            download_ahead_blocks := config.download_ahead_blocks
            download_bodies := true }))
    ∧ (∀ w, config.full_mode = false →
        start_warp_sync config.chain_information = Except.ok w →
        (@allSyncNew χ ρ TRq TSrc start_warp_sync config).inner =
          AllSyncInner.GrandpaWarpSync (WarpSync.InProgress w))
    ∧ (∀ ci err, config.full_mode = false →
        start_warp_sync config.chain_information = Except.error (ci, err) →
        (err = WarpSyncInitError.NotGrandpa ∨
          err = WarpSyncInitError.UnknownConsensus) ∧
        (@allSyncNew χ ρ TRq TSrc start_warp_sync config).inner =
          AllSyncInner.Optimistic (optimisticNew
            { chain_information := ci
              block_number_bytes := config.block_number_bytes
              sources_capacity := config.sources_capacity
              blocks_capacity := config.blocks_capacity
              download_ahead_blocks := config.download_ahead_blocks
              download_bodies := false })) := by
  refine ⟨?_, ?_, ?_⟩
  · intro h
    simp [allSyncNew, h]
  · intro w h hok
    simp [allSyncNew, h, hok]
  · intro ci err h herr
    refine ⟨?_, ?_⟩
    · cases err
      · exact Or.inl rfl
      · exact Or.inr rfl
    · simp [allSyncNew, h, herr]

/-- The configuration of the C7 witness. -/
def cfgC7 : AllSyncConfig Unit :=
  { chain_information := ()
    block_number_bytes := 4
    allow_unknown_consensus_engines := false
    sources_capacity := 1
    blocks_capacity := 1
    max_disjoint_headers := 1
    max_requests_per_block := 1
    download_ahead_blocks := 8
    full_mode := true }

/-- The warp initializer of the C7 witness: always fails with NotGrandpa. -/
def startC7 : Unit → Except (Unit × WarpSyncInitError)
    (WarpInProgress Unit (GrandpaWarpSyncSourceExtra Unit)
      (GrandpaWarpSyncRequestExtra Unit)) :=
  fun _ => Except.error ((), WarpSyncInitError.NotGrandpa)

theorem c7_initial_strategy_selection_witness :
    (@allSyncNew Unit Unit Unit Unit startC7 cfgC7).inner =
      AllSyncInner.Optimistic (optimisticNew
        { chain_information := ()
          block_number_bytes := 4
          sources_capacity := 1
          blocks_capacity := 1
          download_ahead_blocks := 8
          download_bodies := true }) :=
  (c7_initial_strategy_selection startC7 cfgC7).1 rfl

/-! ### Claim C1: responses to Inline requests -/

/-- The concrete composite state of the C1 evaluation: the all-forks
strategy is active and request slot 0 is an Inline mapping with payload
42. -/
def syncC1 : AllSync Unit Unit Nat Unit :=
  { inner := AllSyncInner.AllForks (afNew ())
    shared :=
      { sources := [some (SourceMapping.AllForks 0)]
        requests := [some (RequestMapping.Inline 0
          (RequestDetail.GrandpaWarpSync []) 42)]
        full_mode := false
        sources_capacity := 1
        blocks_capacity := 1
        max_disjoint_headers := 1
        max_requests_per_block := 1
        block_number_bytes := 4
        allow_unknown_consensus_engines := false } }

/-- **C1**: on a live Inline request, every response method removes the
request from the slab and returns its user payload, but only
blocks_request_response reports ResponseOutcome::Outdated: the grandpa,
storage and call-proof response methods report ResponseOutcome::Queued for
Inline requests (each of those arms carries a source TODO noting that
Queued is wrong), contradicting the claimed uniform Outdated outcome. -/
theorem c1_inline_response_outcomes :
    (@blocks_request_response Unit Unit Nat Unit Unit syncC1 0
        (Except.error ())).map
        (fun r => (sget r.1.shared.requests 0, r.2.1, r.2.2)) =
      some (none, 42, ResponseOutcome.Outdated)
    ∧ (grandpa_warp_sync_response_ok syncC1 0 [] true).map
        (fun r => (sget r.1.shared.requests 0, r.2.1, r.2.2)) =
      some (none, 42, ResponseOutcome.Queued)
    ∧ (grandpa_warp_sync_response_err syncC1 0).map
        (fun r => (sget r.1.shared.requests 0, r.2.1, r.2.2)) =
      some (none, 42, ResponseOutcome.Queued)
    ∧ (storage_get_response syncC1 0 (Except.error ())).map
        (fun r => (sget r.1.shared.requests 0, r.2.1, r.2.2)) =
      some (none, 42, ResponseOutcome.Queued)
    ∧ (call_proof_response syncC1 0 (Except.error ())).map
        (fun r => (sget r.1.shared.requests 0, r.2.1, r.2.2)) =
      some (none, 42, ResponseOutcome.Queued) := by
  decide

/-! ### Claim C10: warp finality state is a max-merge -/

/-- The finalized block height recorded for an external source while the
warp strategy is active (in progress or finished): the observation the
claim quantifies over. -/
def recordedFinalizedHeight {χ ρ TRq TSrc : Type}
    (sync : AllSync χ ρ TRq TSrc) (source_id : Nat) : Option (Option Nat) :=
  match sget sync.shared.sources source_id, sync.inner with
  | some (SourceMapping.GrandpaWarpSync sid),
    AllSyncInner.GrandpaWarpSync (WarpSync.InProgress w) =>
    (alookup w.sources sid).map (fun e => e.finalized_block_height)
  | some (SourceMapping.GrandpaWarpSync sid),
    AllSyncInner.GrandpaWarpSync (WarpSync.Finished s) =>
    (alookup s.sources_ordered sid).map (fun e => e.finalized_block_height)
  | _, _ => none

/-- The merge performed on the recorded height: a fresh value when none was
recorded, otherwise the maximum of the old and new values. -/
def maxMergeHeight (old : Option Nat) (hNew : Nat) : Nat :=
  match old with
  | none => hNew
  | some b => max b hNew

/-- The state produced by update_source_finality_state in its warp
in-progress arm. -/
def warpSetHeightInProgress {χ ρ TRq TSrc : Type}
    (sync : AllSync χ ρ TRq TSrc)
    (w : WarpInProgress χ (GrandpaWarpSyncSourceExtra TSrc)
      (GrandpaWarpSyncRequestExtra TRq))
    (sid hNew : Nat) (extra : GrandpaWarpSyncSourceExtra TSrc) :
    AllSync χ ρ TRq TSrc :=
  let h2 := some (maxMergeHeight extra.finalized_block_height hNew)
  let w2 := { w with sources := aupdate w.sources sid { extra with finalized_block_height := h2 } }
  { sync with inner := AllSyncInner.GrandpaWarpSync (WarpSync.InProgress w2) }

/-- The state produced by update_source_finality_state in its warp-finished
arm. -/
def warpSetHeightFinished {χ ρ TRq TSrc : Type}
    (sync : AllSync χ ρ TRq TSrc)
    (s : WarpSuccess χ ρ (GrandpaWarpSyncSourceExtra TSrc)
      (GrandpaWarpSyncRequestExtra TRq))
    (sid hNew : Nat) (extra : GrandpaWarpSyncSourceExtra TSrc) :
    AllSync χ ρ TRq TSrc :=
  let h2 := some (maxMergeHeight extra.finalized_block_height hNew)
  let s2 := { s with sources_ordered := aupdate s.sources_ordered sid { extra with finalized_block_height := h2 } }
  { sync with inner := AllSyncInner.GrandpaWarpSync (WarpSync.Finished s2) }

/-- **C10**: while the warp strategy is active, update_source_finality_state
sets the source's recorded finalized height to the maximum of its previous
value and the given one (a fresh value when none was recorded), so the
recorded height is at least the previous one and at least the given one:
it never decreases across any sequence of such calls. -/
theorem c10_warp_finality_never_decreases {χ ρ TRq TSrc : Type}
    (sync : AllSync χ ρ TRq TSrc) (source_id hNew : Nat) (prev : Option Nat)
    (hrec : recordedFinalizedHeight sync source_id = some prev) :
    ∃ sync2, update_source_finality_state sync source_id hNew = some sync2 ∧
      recordedFinalizedHeight sync2 source_id =
        some (some (maxMergeHeight prev hNew)) ∧
      (∀ b, prev = some b → b ≤ maxMergeHeight prev hNew) ∧
      hNew ≤ maxMergeHeight prev hNew := by
  unfold recordedFinalizedHeight at hrec
  split at hrec
  · rename_i sid w heq1 heq2
    obtain ⟨extra, hex, hfin⟩ :
        ∃ e, alookup w.sources sid = some e ∧
          e.finalized_block_height = prev := by
      cases hx : alookup w.sources sid with
      | none => rw [hx] at hrec; exact absurd hrec (by simp)
      | some e =>
        rw [hx] at hrec
        exact ⟨e, rfl, by simpa using hrec⟩
    have hupd : update_source_finality_state sync source_id hNew =
        some (warpSetHeightInProgress sync w sid hNew extra) := by
      simp only [update_source_finality_state, heq1, heq2, hex,
        warpSetHeightInProgress, maxMergeHeight]
    refine ⟨_, hupd, ?_, ?_, ?_⟩
    · unfold recordedFinalizedHeight warpSetHeightInProgress
      simp only [heq1]
      rw [alookup_aupdate_self]
      simp [hfin]
    · intro b hb
      cases prev with
      | none => cases hb
      | some p => cases hb; exact Nat.le_max_left _ _
    · cases prev with
      | none => exact Nat.le_refl hNew
      | some p => exact Nat.le_max_right p hNew
  · rename_i sid s heq1 heq2
    obtain ⟨extra, hex, hfin⟩ :
        ∃ e, alookup s.sources_ordered sid = some e ∧
          e.finalized_block_height = prev := by
      cases hx : alookup s.sources_ordered sid with
      | none => rw [hx] at hrec; exact absurd hrec (by simp)
      | some e =>
        rw [hx] at hrec
        exact ⟨e, rfl, by simpa using hrec⟩
    have hupd : update_source_finality_state sync source_id hNew =
        some (warpSetHeightFinished sync s sid hNew extra) := by
      simp only [update_source_finality_state, heq1, heq2, hex,
        warpSetHeightFinished, maxMergeHeight]
    refine ⟨_, hupd, ?_, ?_, ?_⟩
    · unfold recordedFinalizedHeight warpSetHeightFinished
      simp only [heq1]
      rw [alookup_aupdate_self]
      simp [hfin]
    · intro b hb
      cases prev with
      | none => cases hb
      | some p => cases hb; exact Nat.le_max_left _ _
    · cases prev with
      | none => exact Nat.le_refl hNew
      | some p => exact Nat.le_max_right p hNew
  · exact absurd hrec (by simp)

/-- The concrete state of the C10 witness: an in-progress warp machine with
one source whose recorded finalized height is 5. -/
def syncC10 : AllSync Unit Unit Unit Unit :=
  { inner := AllSyncInner.GrandpaWarpSync (WarpSync.InProgress
      { chain_information := ()
        sources := [(3, { outer_source_id := 0
                          user_data := ()
                          finalized_block_height := some 5
                          best_block_number := 1
                          best_block_hash := [] })]
        next_source_id := 4
        requests := []
        next_request_id := 0 })
    shared :=
      { sources := [some (SourceMapping.GrandpaWarpSync 3)]
        requests := []
        full_mode := false
        sources_capacity := 1
        blocks_capacity := 1
        max_disjoint_headers := 1
        max_requests_per_block := 1
        block_number_bytes := 4
        allow_unknown_consensus_engines := false } }

theorem c10_warp_finality_never_decreases_witness :
    ∃ sync2, update_source_finality_state syncC10 0 9 = some sync2 ∧
      recordedFinalizedHeight sync2 0 =
        some (some (maxMergeHeight (some 5) 9)) ∧
      (∀ b, (some 5 : Option Nat) = some b → b ≤ maxMergeHeight (some 5) 9) ∧
      9 ≤ maxMergeHeight (some 5) 9 :=
  c10_warp_finality_never_decreases syncC10 0 9 (some 5) (by decide)

/-! ### Claim C8: remove_source -/

theorem removeSharedRequests_spec {TRq : Type} :
    ∀ (l : List (Nat × Option TRq)) (requests : Slab (RequestMapping TRq)),
      (∀ p ∈ l, (sget requests p.1).isSome ∧ p.2.isSome) →
      (l.map Prod.fst).Nodup →
      ∃ requests2,
        removeSharedRequests requests l =
          some (requests2,
            l.filterMap (fun p => p.2.map (fun u => (p.1, u)))) ∧
        (∀ k, k ∈ l.map Prod.fst → sget requests2 k = none) ∧
        (∀ k, k ∉ l.map Prod.fst → sget requests2 k = sget requests k) := by
  intro l
  induction l with
  | nil =>
    intro requests _ _
    exact ⟨requests, rfl, by simp, fun k _ => rfl⟩
  | cons p rest ih =>
    intro requests hlp hnd
    obtain ⟨outer, payload⟩ := p
    obtain ⟨hlive, hpay⟩ := hlp (outer, payload) (List.mem_cons_self _ _)
    obtain ⟨m, hm⟩ := Option.isSome_iff_exists.mp hlive
    obtain ⟨u, hu⟩ := Option.isSome_iff_exists.mp hpay
    subst hu
    simp only [List.map_cons, List.nodup_cons] at hnd
    obtain ⟨hout, hnd2⟩ := hnd
    have hlp2 : ∀ q ∈ rest,
        (sget (sremove requests outer) q.1).isSome ∧ q.2.isSome := by
      intro q hq
      obtain ⟨hl, hp⟩ := hlp q (List.mem_cons_of_mem _ hq)
      refine ⟨?_, hp⟩
      have hne : outer ≠ q.1 :=
        fun he => hout (he ▸ List.mem_map_of_mem Prod.fst hq)
      rw [sget_sremove_ne requests hne]
      exact hl
    obtain ⟨requests2, hrec, hnone, hpres⟩ :=
      ih (sremove requests outer) hlp2 hnd2
    refine ⟨requests2, ?_, ?_, ?_⟩
    · simp only [removeSharedRequests, hm]
      rw [hrec]
      simp [List.filterMap_cons]
    · intro k hk
      simp only [List.map_cons, List.mem_cons] at hk
      rcases hk with hk | hk
      · subst hk
        by_cases hk2 : k ∈ rest.map Prod.fst
        · exact hnone k hk2
        · rw [hpres k hk2]
          exact sget_sremove_self requests k
      · exact hnone k hk
    · intro k hk
      simp only [List.map_cons, List.mem_cons] at hk
      push_neg at hk
      obtain ⟨hk1, hk2⟩ := hk
      rw [hpres k hk2]
      exact sget_sremove_ne requests (fun he => hk1 he.symm)

/-- **C8**: for a live source mapped to the all-forks strategy, with
in-flight strategy requests and a live Inline request, remove_source
returns the source's user data together with exactly the strategy-local
in-flight requests of that source, each as its external request id and
user payload; those request slots and the source slot are freed in the
shared slabs, the strategy drops the source and its requests, and the
Inline request is left untouched in the requests slab. -/
theorem c8_remove_source_all_forks {χ ρ TRq TSrc : Type}
    (sync : AllSync χ ρ TRq TSrc) (source_id sid : Nat)
    (af : AllForksModel χ (AllForksRequestExtra TRq) (AllForksSourceExtra TSrc))
    (st : AFSource (AllForksSourceExtra TSrc))
    (inline_id isrc : Nat) (idet : RequestDetail) (iu : TRq)
    (hinner : sync.inner = AllSyncInner.AllForks af)
    (hmap : sget sync.shared.sources source_id =
      some (SourceMapping.AllForks sid))
    (hsrc : alookup af.sources sid = some st)
    (hndsrc : (akeys af.sources).Nodup)
    (hreq : ∀ r ∈ af.requests.filter (fun r => r.src == sid),
      (sget sync.shared.requests r.user_data.outer_request_id).isSome ∧
      r.user_data.user_data.isSome)
    (hnd : ((af.requests.filter (fun r => r.src == sid)).map
      (fun r => r.user_data.outer_request_id)).Nodup)
    (hinl : sget sync.shared.requests inline_id =
      some (RequestMapping.Inline isrc idet iu))
    (hinlne : inline_id ∉ (af.requests.filter (fun r => r.src == sid)).map
      (fun r => r.user_data.outer_request_id)) :
    ∃ sync2,
      remove_source sync source_id =
        some (sync2, st.user_data.user_data,
          (af.requests.filter (fun r => r.src == sid)).filterMap
            (fun r => r.user_data.user_data.map
              (fun u => (r.user_data.outer_request_id, u)))) ∧
      sget sync2.shared.sources source_id = none ∧
      (∀ k, k ∈ (af.requests.filter (fun r => r.src == sid)).map
          (fun r => r.user_data.outer_request_id) →
        sget sync2.shared.requests k = none) ∧
      sget sync2.shared.requests inline_id =
        some (RequestMapping.Inline isrc idet iu) ∧
      (∃ af2, sync2.inner = AllSyncInner.AllForks af2 ∧
        alookup af2.sources sid = none ∧
        af2.requests.filter (fun r => r.src == sid) = []) := by
  have hfaf : afRemoveSource af sid =
      some ({ af with
               sources := aerase af.sources sid
               requests := af.requests.filter (fun r => r.src != sid) },
        st.user_data, af.requests.filter (fun r => r.src == sid)) := by
    simp only [afRemoveSource, hsrc]
  obtain ⟨requests2, hrun, hnone, hpres⟩ :=
    removeSharedRequests_spec
      ((af.requests.filter (fun r => r.src == sid)).map
        (fun r => (r.user_data.outer_request_id, r.user_data.user_data)))
      sync.shared.requests
      (by
        intro p hp
        obtain ⟨r, hr, rfl⟩ := List.mem_map.mp hp
        exact hreq r hr)
      (by
        rw [List.map_map]
        exact hnd)
  have hmm : ∀ k, (k ∈ ((af.requests.filter (fun r => r.src == sid)).map
      (fun r => (r.user_data.outer_request_id, r.user_data.user_data))).map
        Prod.fst) ↔
      (k ∈ (af.requests.filter (fun r => r.src == sid)).map
        (fun r => r.user_data.outer_request_id)) := by
    intro k
    rw [List.map_map]
    rfl
  let af2 : AllForksModel χ (AllForksRequestExtra TRq) (AllForksSourceExtra TSrc) := { af with sources := aerase af.sources sid, requests := af.requests.filter (fun r => r.src != sid) }
  let shared2 : Shared TRq := { sync.shared with sources := sremove sync.shared.sources source_id, requests := requests2 }
  refine ⟨{ inner := AllSyncInner.AllForks af2, shared := shared2 }, ?_, ?_, ?_, ?_, ?_⟩
  · show remove_source sync source_id = _
    simp only [remove_source, hmap, hinner, hfaf]
    rw [hrun]
    simp only [List.filterMap_map]
    rfl
  · exact sget_sremove_self sync.shared.sources source_id
  · intro k hk
    exact hnone k ((hmm k).mpr hk)
  · rw [hpres inline_id (fun hc => hinlne ((hmm inline_id).mp hc))]
    exact hinl
  · refine ⟨af2, rfl, ?_, ?_⟩
    · exact alookup_aerase_self hndsrc
    · refine List.filter_eq_nil_iff.mpr ?_
      intro a ha
      have h1 := List.of_mem_filter ha
      simp only [bne_iff_ne, ne_eq] at h1
      simp only [beq_iff_eq]
      exact h1

/-- The all-forks machine of the C8 witness: one source (strategy id 2,
external id 0) with one in-flight request (external id 1, payload 7). -/
def afC8 : AllForksModel Unit (AllForksRequestExtra Nat)
    (AllForksSourceExtra Nat) :=
  { chain_information := ()
    sources := [(2, { user_data := { outer_source_id := 0, user_data := 5 }
                      best_block_number := 1
                      best_block_hash := []
                      finalized_block_height := none })]
    next_source_id := 3
    requests := [{ rid := 0
                   src := 2
                   params := { first_block_hash := []
                               first_block_height := 0
                               num_blocks := 1 }
                   user_data := { outer_request_id := 1
                                  user_data := some 7 } }]
    next_request_id := 1 }

/-- The source entry of the C8 witness. -/
def stC8 : AFSource (AllForksSourceExtra Nat) :=
  { user_data := { outer_source_id := 0, user_data := 5 }
    best_block_number := 1
    best_block_hash := []
    finalized_block_height := none }

/-- The composite state of the C8 witness: external source 0 maps into the
all-forks strategy; request slot 0 is Inline with payload 9 and request
slot 1 belongs to the strategy. -/
def syncC8 : AllSync Unit Unit Nat Nat :=
  { inner := AllSyncInner.AllForks afC8
    shared :=
      { sources := [some (SourceMapping.AllForks 2)]
        requests := [some (RequestMapping.Inline 0
            (RequestDetail.GrandpaWarpSync []) 9),
          some (RequestMapping.AllForks 0)]
        full_mode := false
        sources_capacity := 1
        blocks_capacity := 1
        max_disjoint_headers := 1
        max_requests_per_block := 1
        block_number_bytes := 4
        allow_unknown_consensus_engines := false } }

theorem c8_remove_source_all_forks_witness :
    ∃ sync2,
      remove_source syncC8 0 =
        some (sync2, stC8.user_data.user_data,
          (afC8.requests.filter (fun r => r.src == 2)).filterMap
            (fun r => r.user_data.user_data.map
              (fun u => (r.user_data.outer_request_id, u)))) ∧
      sget sync2.shared.sources 0 = none ∧
      (∀ k, k ∈ (afC8.requests.filter (fun r => r.src == 2)).map
          (fun r => r.user_data.outer_request_id) →
        sget sync2.shared.requests k = none) ∧
      sget sync2.shared.requests 0 =
        some (RequestMapping.Inline 0 (RequestDetail.GrandpaWarpSync []) 9) ∧
      (∃ af2, sync2.inner = AllSyncInner.AllForks af2 ∧
        alookup af2.sources 2 = none ∧
        af2.requests.filter (fun r => r.src == 2) = []) :=
  c8_remove_source_all_forks syncC8 0 2 afC8 stC8 0 0
    (RequestDetail.GrandpaWarpSync []) 9 rfl (by decide) (by decide)
    (by decide) (by decide) (by decide) (by decide) (by decide)

/-! ### Claim C2: the warp-to-all-forks transition -/

theorem alookup_append_ne {α : Type} (l : List (Nat × α)) {k j : Nat}
    (v : α) (h : j ≠ k) : alookup (l ++ [(k, v)]) j = alookup l j := by
  induction l with
  | nil =>
    simp only [List.nil_append, alookup]
    exact if_neg (fun hh => h hh.symm)
  | cons hd t ih =>
    obtain ⟨k', v'⟩ := hd
    simp only [List.cons_append, alookup]
    by_cases hk : k' = j
    · rw [if_pos hk, if_pos hk]
    · rw [if_neg hk, if_neg hk]
      exact ih

theorem alookup_append_self {α : Type} {l : List (Nat × α)} {k : Nat}
    (v : α) (h : alookup l k = none) :
    alookup (l ++ [(k, v)]) k = some v := by
  induction l with
  | nil => simp [alookup]
  | cons hd t ih =>
    obtain ⟨k', v'⟩ := hd
    simp only [alookup] at h
    by_cases hk : k' = k
    · rw [if_pos hk] at h
      exact Option.noConfusion h
    · rw [if_neg hk] at h
      simp only [List.cons_append, alookup, if_neg hk]
      exact ih h

theorem alookup_none_of_keys_lt {α : Type} {l : List (Nat × α)} {k : Nat}
    (h : ∀ q ∈ l, q.1 < k) : alookup l k = none := by
  rw [alookup_eq_none_iff]
  intro hk
  obtain ⟨q, hq, hqk⟩ := List.mem_map.mp hk
  exact absurd (hqk ▸ h q hq) (lt_irrefl k)

theorem alookup_afHeightMergeMap_ne {TSrcX : Type}
    (l : List (Nat × AFSource TSrcX)) {sid j : Nat} (height : Nat)
    (h : j ≠ sid) :
    alookup (l.map (fun e =>
      if e.1 = sid then (e.1, afHeightMerge height e.2) else e)) j =
      alookup l j := by
  induction l with
  | nil => rfl
  | cons hd t ih =>
    obtain ⟨k, v⟩ := hd
    simp only [List.map_cons]
    by_cases hk : k = sid
    · rw [if_pos hk]
      subst hk
      simp only [alookup]
      rw [if_neg (fun hh => h hh.symm), if_neg (fun hh => h hh.symm)]
      exact ih
    · rw [if_neg hk]
      simp only [alookup]
      by_cases hkj : k = j
      · rw [if_pos hkj, if_pos hkj]
      · rw [if_neg hkj, if_neg hkj]
        exact ih

theorem alookup_afHeightMergeMap_self {TSrcX : Type}
    (l : List (Nat × AFSource TSrcX)) (sid : Nat) (height : Nat) :
    alookup (l.map (fun e =>
      if e.1 = sid then (e.1, afHeightMerge height e.2) else e)) sid =
      (alookup l sid).map (afHeightMerge height) := by
  induction l with
  | nil => rfl
  | cons hd t ih =>
    obtain ⟨k, v⟩ := hd
    simp only [List.map_cons]
    by_cases hk : k = sid
    · rw [if_pos hk]
      subst hk
      simp only [alookup, if_pos rfl]
      rfl
    · rw [if_neg hk]
      simp only [alookup, if_neg hk]
      exact ih

theorem keys_afHeightMergeMap {TSrcX : Type}
    (l : List (Nat × AFSource TSrcX)) (sid height N : Nat)
    (h : ∀ q ∈ l, q.1 < N) :
    ∀ q ∈ l.map (fun e =>
      if e.1 = sid then (e.1, afHeightMerge height e.2) else e),
      q.1 < N := by
  intro q hq
  obtain ⟨e, he, rfl⟩ := List.mem_map.mp hq
  by_cases hc : e.1 = sid
  · simp only [if_pos hc]
    exact h e he
  · simp only [if_neg hc]
    exact h e he

/-- The behaviour of the in-progress-requests loop of the transition:
with every warp source findable in the slab, every external request id
live, and the external ids pairwise distinct, the loop succeeds and
rewrites exactly those slots to the converted Inline mappings. -/
theorem transitionRequests_spec {TRq TRqX : Type}
    (outerOf : TRqX → Nat) (payloadOf : TRqX → TRq)
    (sources : Slab SourceMapping) :
    ∀ (l : List (Nat × Nat × TRqX × WarpRequestDetail))
      (requests : Slab (RequestMapping TRq)),
      (∀ e ∈ l, (sfind sources (warpSourcePred e.1)).isSome ∧
        (sget requests (outerOf e.2.2.1)).isSome) →
      (l.map (fun e => outerOf e.2.2.1)).Nodup →
      ∃ requests2,
        transitionRequests outerOf payloadOf sources requests l =
          some requests2 ∧
        (∀ e ∈ l, ∃ os m,
          sfind sources (warpSourcePred e.1) = some (os, m) ∧
          sget requests2 (outerOf e.2.2.1) =
            some (RequestMapping.Inline os
              (convertWarpRequestDetail e.2.2.2) (payloadOf e.2.2.1))) ∧
        (∀ k, k ∉ l.map (fun e => outerOf e.2.2.1) →
          sget requests2 k = sget requests k) := by
  intro l
  induction l with
  | nil =>
    intro requests _ _
    exact ⟨requests, rfl, by simp, fun k _ => rfl⟩
  | cons e rest ih =>
    intro requests hlp hnd
    obtain ⟨source_id, rid, extra, detail⟩ := e
    obtain ⟨hfindS, hliveS⟩ :=
      hlp (source_id, rid, extra, detail) (List.mem_cons_self _ _)
    obtain ⟨⟨os, m⟩, hfind⟩ := Option.isSome_iff_exists.mp hfindS
    simp only [List.map_cons, List.nodup_cons] at hnd
    obtain ⟨hout, hnd2⟩ := hnd
    have hlp2 : ∀ q ∈ rest,
        (sfind sources (warpSourcePred q.1)).isSome ∧
        (sget (sset requests (outerOf extra)
          (RequestMapping.Inline os (convertWarpRequestDetail detail)
            (payloadOf extra))) (outerOf q.2.2.1)).isSome := by
      intro q hq
      obtain ⟨h1, h2⟩ := hlp q (List.mem_cons_of_mem _ hq)
      exact ⟨h1, sget_sset_isSome _ h2⟩
    obtain ⟨requests2, hrun, hconv, hpres⟩ :=
      ih (sset requests (outerOf extra)
        (RequestMapping.Inline os (convertWarpRequestDetail detail)
          (payloadOf extra))) hlp2 hnd2
    refine ⟨requests2, ?_, ?_, ?_⟩
    · simp only [transitionRequests, hfind, hliveS, if_pos]
      exact hrun
    · intro q hq
      rcases List.mem_cons.mp hq with hq1 | hq1
      · subst hq1
        refine ⟨os, m, hfind, ?_⟩
        rw [hpres (outerOf extra) hout]
        exact sget_sset_self _ hliveS
      · exact hconv q hq1
    · intro k hk
      simp only [List.map_cons, List.mem_cons] at hk
      push_neg at hk
      obtain ⟨hk1, hk2⟩ := hk
      rw [hpres k hk2]
      exact sget_sset_ne requests _ (fun he => hk1 he.symm)

/-- The behaviour of the sources loop of the transition: with every
external source id live and the ids pairwise distinct, the loop succeeds,
re-keys exactly those slots to fresh all-forks entries that keep the
external id and the forwarded finality state, and leaves the existing
all-forks entries intact. -/
theorem transitionSources_spec {χ TRq TSrc : Type} :
    ∀ (l : List (Nat × GrandpaWarpSyncSourceExtra TSrc))
      (sources : Slab SourceMapping)
      (af : AllForksModel χ (AllForksRequestExtra TRq)
        (AllForksSourceExtra TSrc)),
      (∀ p ∈ l, (sget sources p.2.outer_source_id).isSome) →
      (l.map (fun p => p.2.outer_source_id)).Nodup →
      (∀ q ∈ af.sources, q.1 < af.next_source_id) →
      ∃ sources2 af2,
        transitionSources sources af l = some (sources2, af2) ∧
        af.next_source_id ≤ af2.next_source_id ∧
        (∀ q ∈ af2.sources, q.1 < af2.next_source_id) ∧
        (∀ a, a < af.next_source_id →
          alookup af2.sources a = alookup af.sources a) ∧
        (∀ p ∈ l, ∃ a,
          sget sources2 p.2.outer_source_id =
            some (SourceMapping.AllForks a) ∧
          alookup af2.sources a =
            some { user_data := { outer_source_id := p.2.outer_source_id
                                  user_data := p.2.user_data }
                   best_block_number := p.2.best_block_number
                   best_block_hash := p.2.best_block_hash
                   finalized_block_height :=
                     p.2.finalized_block_height }) ∧
        (∀ k, k ∉ l.map (fun p => p.2.outer_source_id) →
          sget sources2 k = sget sources k) := by
  intro l
  induction l with
  | nil =>
    intro sources af _ _ hkeys
    exact ⟨sources, af, rfl, Nat.le_refl _, hkeys, fun a _ => rfl,
      by simp, fun k _ => rfl⟩
  | cons p rest ih =>
    intro sources af hlp hnd hkeys
    obtain ⟨wsid, source⟩ := p
    have hliveS := hlp (wsid, source) (List.mem_cons_self _ _)
    simp only [List.map_cons, List.nodup_cons] at hnd
    obtain ⟨hout, hnd2⟩ := hnd
    set sud : AllForksSourceExtra TSrc :=
      { user_data := source.user_data
        outer_source_id := source.outer_source_id } with hsud
    set entry0 : AFSource (AllForksSourceExtra TSrc) :=
      { user_data := sud
        best_block_number := source.best_block_number
        best_block_hash := source.best_block_hash
        finalized_block_height := none } with hentry0
    have hlook0 : alookup af.sources af.next_source_id = none :=
      alookup_none_of_keys_lt hkeys
    have hstep : alookup (af.sources ++ [(af.next_source_id, entry0)])
        af.next_source_id = some entry0 :=
      alookup_append_self entry0 hlook0
    -- the machine after afAddSource and the optional finality forwarding
    set afMid : AllForksModel χ (AllForksRequestExtra TRq)
        (AllForksSourceExtra TSrc) :=
      (match source.finalized_block_height with
       | some height =>
         afUpdateSourceFinalityState
           { af with
               sources := af.sources ++ [(af.next_source_id, entry0)]
               next_source_id := af.next_source_id + 1 }
           af.next_source_id height
       | none =>
         { af with
             sources := af.sources ++ [(af.next_source_id, entry0)]
             next_source_id := af.next_source_id + 1 }) with hafMid
    have hmid_next : afMid.next_source_id = af.next_source_id + 1 := by
      rw [hafMid]
      cases source.finalized_block_height <;> rfl
    have hmid_keys : ∀ q ∈ afMid.sources, q.1 < afMid.next_source_id := by
      rw [hafMid]
      cases hfh : source.finalized_block_height with
      | none =>
        intro q hq
        rcases List.mem_append.mp hq with hq1 | hq1
        · exact Nat.lt_succ_of_lt (hkeys q hq1)
        · simp only [List.mem_singleton] at hq1
          subst hq1
          exact Nat.lt_succ_self _
      | some height =>
        apply keys_afHeightMergeMap
        intro q hq
        rcases List.mem_append.mp hq with hq1 | hq1
        · exact Nat.lt_succ_of_lt (hkeys q hq1)
        · simp only [List.mem_singleton] at hq1
          subst hq1
          exact Nat.lt_succ_self _
    have hmid_pres : ∀ a, a < af.next_source_id →
        alookup afMid.sources a = alookup af.sources a := by
      intro a ha
      rw [hafMid]
      cases source.finalized_block_height with
      | none =>
        exact alookup_append_ne af.sources entry0 (Nat.ne_of_lt ha)
      | some height =>
        show alookup ((af.sources ++ [(af.next_source_id, entry0)]).map
          (fun e => if e.1 = af.next_source_id
            then (e.1, afHeightMerge height e.2) else e)) a = _
        rw [alookup_afHeightMergeMap_ne _ height (Nat.ne_of_lt ha)]
        exact alookup_append_ne af.sources entry0 (Nat.ne_of_lt ha)
    have hmid_entry : alookup afMid.sources af.next_source_id =
        some { user_data := sud
               best_block_number := source.best_block_number
               best_block_hash := source.best_block_hash
               finalized_block_height := source.finalized_block_height } := by
      rw [hafMid]
      cases hfh : source.finalized_block_height with
      | none =>
        show alookup (af.sources ++ [(af.next_source_id, entry0)]) _ = _
        rw [hstep, hentry0]
      | some height =>
        show alookup ((af.sources ++ [(af.next_source_id, entry0)]).map
          (fun e => if e.1 = af.next_source_id
            then (e.1, afHeightMerge height e.2) else e))
          af.next_source_id = _
        rw [alookup_afHeightMergeMap_self, hstep]
        rfl
    have hlp2 : ∀ q ∈ rest,
        (sget (sset sources source.outer_source_id
          (SourceMapping.AllForks af.next_source_id))
          q.2.outer_source_id).isSome := by
      intro q hq
      exact sget_sset_isSome _ (hlp q (List.mem_cons_of_mem _ hq))
    obtain ⟨sources2, af2, hrun, hnext, hkeys2, hpresAf, hconv, hpresS⟩ :=
      ih (sset sources source.outer_source_id
        (SourceMapping.AllForks af.next_source_id)) afMid hlp2 hnd2
        hmid_keys
    refine ⟨sources2, af2, ?_, ?_, hkeys2, ?_, ?_, ?_⟩
    · simp only [transitionSources, hliveS, if_pos]
      exact hrun
    · rw [hmid_next] at hnext
      exact Nat.le_of_succ_le hnext
    · intro a ha
      rw [hpresAf a (by rw [hmid_next]; exact Nat.lt_succ_of_lt ha)]
      exact hmid_pres a ha
    · intro q hq
      rcases List.mem_cons.mp hq with hq1 | hq1
      · subst hq1
        refine ⟨af.next_source_id, ?_, ?_⟩
        · rw [hpresS source.outer_source_id hout]
          exact sget_sset_self _ hliveS
        · rw [hpresAf af.next_source_id
            (by rw [hmid_next]; exact Nat.lt_succ_self _)]
          exact hmid_entry
      · exact hconv q hq1
    · intro k hk
      simp only [List.map_cons, List.mem_cons] at hk
      push_neg at hk
      obtain ⟨hk1, hk2⟩ := hk
      rw [hpresS k hk2]
      exact sget_sset_ne sources _ (fun he => hk1 he.symm)

/-- Whether a request mapping is Inline. -/
def isInlineMapping {TRq : Type} : RequestMapping TRq → Bool
  | RequestMapping.Inline _ _ _ => true
  | _ => false

theorem isInlineMapping_eq {TRq : Type} {m : RequestMapping TRq}
    (h : isInlineMapping m = true) :
    ∃ src d u, m = RequestMapping.Inline src d u := by
  cases m with
  | Inline src d u => exact ⟨src, d, u, rfl⟩
  | AllForks i => exact absurd h (by simp [isInlineMapping])
  | Optimistic i => exact absurd h (by simp [isInlineMapping])
  | WarpSync i => exact absurd h (by simp [isInlineMapping])

theorem sget_none_of_le {α : Type} (s : Slab α) (k : Nat)
    (h : s.length ≤ k) : sget s k = none := by
  induction s generalizing k with
  | nil => simp [sget]
  | cons a t ih =>
    cases k with
    | zero => exact absurd h (by simp)
    | succ n =>
      simp only [sget, List.getD_cons_succ]
      exact ih n (Nat.le_of_succ_le_succ h)

theorem lt_length_of_sget_some {α : Type} {s : Slab α} {k : Nat} {m : α}
    (h : sget s k = some m) : k < s.length := by
  by_contra hge
  rw [sget_none_of_le s k (Nat.le_of_not_lt hge)] at h
  exact Option.noConfusion h

/-- **C2**: with the warp strategy finished, a single process_one call
performs the whole warp-to-all-forks transition and returns
ProcessOne::WarpSyncFinished carrying the runtime and storage values;
afterwards every in-progress warp request occupies its old external id as
an Inline mapping for its warp source's external id, with its payload and
its converted request detail; every warp source keeps its external id,
re-keyed to a fresh all-forks entry carrying the forwarded finality state;
and every live source slot maps to an all-forks entry while every live
request slot is Inline. -/
theorem c2_warp_transition {χ ρ TRq TSrc : Type}
    (sync : AllSync χ ρ TRq TSrc)
    (s : WarpSuccess χ ρ (GrandpaWarpSyncSourceExtra TSrc)
      (GrandpaWarpSyncRequestExtra TRq))
    (hinner : sync.inner = AllSyncInner.GrandpaWarpSync (WarpSync.Finished s))
    (hreq : ∀ e ∈ s.in_progress_requests,
      (sfind sync.shared.sources (warpSourcePred e.1)).isSome ∧
      (sget sync.shared.requests e.2.2.1.outer_request_id).isSome)
    (hreqnd : (s.in_progress_requests.map
      (fun e => e.2.2.1.outer_request_id)).Nodup)
    (hsrclive : ∀ p ∈ s.sources_ordered,
      (sget sync.shared.sources p.2.outer_source_id).isSome)
    (hsrcnd : (s.sources_ordered.map
      (fun p => p.2.outer_source_id)).Nodup)
    (hcovsrc : ∀ k, k < sync.shared.sources.length →
      ((sget sync.shared.sources k).all (fun _ =>
        s.sources_ordered.any
          (fun x => x.2.outer_source_id == k))) = true)
    (hcovreq : ∀ k, k < sync.shared.requests.length →
      ((sget sync.shared.requests k).all (fun m =>
        isInlineMapping m ||
        s.in_progress_requests.any
          (fun e => e.2.2.1.outer_request_id == k))) = true) :
    ∃ sync2,
      process_one sync = some (ProcessOne.WarpSyncFinished sync2
        s.finalized_runtime s.finalized_storage_code
        s.finalized_storage_heap_pages) ∧
      (∀ e ∈ s.in_progress_requests, ∃ os m,
        sfind sync.shared.sources (warpSourcePred e.1) = some (os, m) ∧
        sget sync2.shared.requests e.2.2.1.outer_request_id =
          some (RequestMapping.Inline os
            (convertWarpRequestDetail e.2.2.2) e.2.2.1.user_data)) ∧
      (∃ af2, sync2.inner = AllSyncInner.AllForks af2 ∧
        ∀ p ∈ s.sources_ordered, ∃ a,
          sget sync2.shared.sources p.2.outer_source_id =
            some (SourceMapping.AllForks a) ∧
          alookup af2.sources a =
            some { user_data := { outer_source_id := p.2.outer_source_id
                                  user_data := p.2.user_data }
                   best_block_number := p.2.best_block_number
                   best_block_hash := p.2.best_block_hash
                   finalized_block_height :=
                     p.2.finalized_block_height }) ∧
      (∀ k m, sget sync2.shared.sources k = some m →
        ∃ a, m = SourceMapping.AllForks a) ∧
      (∀ k m, sget sync2.shared.requests k = some m →
        ∃ src d u, m = RequestMapping.Inline src d u) := by
  obtain ⟨requests2, hrunR, hconvR, hpresR⟩ :=
    transitionRequests_spec (fun e => e.outer_request_id)
      (fun e => e.user_data) sync.shared.sources s.in_progress_requests
      sync.shared.requests hreq hreqnd
  obtain ⟨sources2, af2, hrunS, hnext, hkeys2, hpresAf, hconvS, hpresS⟩ :=
    transitionSources_spec s.sources_ordered sync.shared.sources
      (afNew s.chain_information) hsrclive hsrcnd
      (by intro q hq; simp [afNew] at hq)
  refine ⟨{ inner := AllSyncInner.AllForks af2, shared := { sync.shared with sources := sources2, requests := requests2 } }, ?_, ?_, ?_, ?_, ?_⟩
  · simp only [process_one, hinner, transition_grandpa_warp_sync_all_forks]
    rw [hrunR, hrunS]
  · intro e he
    exact hconvR e he
  · exact ⟨af2, rfl, hconvS⟩
  · intro k m hk
    by_cases hmem : k ∈ s.sources_ordered.map
        (fun p => p.2.outer_source_id)
    · obtain ⟨p, hp, hpk⟩ := List.mem_map.mp hmem
      obtain ⟨a, ha1, ha2⟩ := hconvS p hp
      rw [hpk] at ha1
      have h2 := hk.symm.trans ha1
      injection h2 with h3
      exact ⟨a, h3⟩
    · rw [hpresS k hmem] at hk
      have hc := hcovsrc k (lt_length_of_sget_some hk)
      rw [hk] at hc
      simp only [Option.all, List.any_eq_true, beq_iff_eq] at hc
      obtain ⟨x, hx, hxk⟩ := hc
      exact absurd
        (hxk ▸ List.mem_map_of_mem (fun p => p.2.outer_source_id) hx) hmem
  · intro k m hk
    by_cases hmem : k ∈ s.in_progress_requests.map
        (fun e => e.2.2.1.outer_request_id)
    · obtain ⟨e, he, hek⟩ := List.mem_map.mp hmem
      obtain ⟨os, mm, hfind, hc⟩ := hconvR e he
      rw [hek] at hc
      have h2 := hk.symm.trans hc
      injection h2 with h3
      exact ⟨os, convertWarpRequestDetail e.2.2.2, e.2.2.1.user_data, h3⟩
    · rw [hpresR k hmem] at hk
      have hc := hcovreq k (lt_length_of_sget_some hk)
      rw [hk] at hc
      simp only [Option.all, Bool.or_eq_true, List.any_eq_true,
        beq_iff_eq] at hc
      rcases hc with h | ⟨e, he, hek⟩
      · exact isInlineMapping_eq h
      · exact absurd
          (hek ▸ List.mem_map_of_mem (fun e => e.2.2.1.outer_request_id) he)
          hmem

/-- The finished warp machine of the C2 witness: one source (warp id 3,
external id 0, finalized height 4) and one in-progress warp request
(warp id 7, external id 1, payload 8). -/
def warpSuccC2 : WarpSuccess Unit Unit (GrandpaWarpSyncSourceExtra Nat)
    (GrandpaWarpSyncRequestExtra Nat) :=
  { chain_information := ()
    finalized_runtime := ()
    finalized_storage_code := some [1]
    finalized_storage_heap_pages := none
    sources_ordered := [(3, { outer_source_id := 0
                              user_data := 5
                              finalized_block_height := some 4
                              best_block_number := 2
                              best_block_hash := [] })]
    in_progress_requests := [(3, 7, { outer_request_id := 1, user_data := 8 },
      WarpRequestDetail.WarpSyncRequest [])] }

/-- The composite state of the C2 witness: the finished warp strategy,
external source 0 mapped to warp source 3, request slot 0 Inline and
request slot 1 mapped to warp request 7. -/
def syncC2 : AllSync Unit Unit Nat Nat :=
  { inner := AllSyncInner.GrandpaWarpSync (WarpSync.Finished warpSuccC2)
    shared :=
      { sources := [some (SourceMapping.GrandpaWarpSync 3)]
        requests := [some (RequestMapping.Inline 0
            (RequestDetail.StorageGet [] []) 6),
          some (RequestMapping.WarpSync 7)]
        full_mode := false
        sources_capacity := 1
        blocks_capacity := 1
        max_disjoint_headers := 1
        max_requests_per_block := 1
        block_number_bytes := 4
        allow_unknown_consensus_engines := false } }

theorem c2_warp_transition_witness :
    ∃ sync2,
      process_one syncC2 = some (ProcessOne.WarpSyncFinished sync2
        warpSuccC2.finalized_runtime warpSuccC2.finalized_storage_code
        warpSuccC2.finalized_storage_heap_pages) ∧
      (∀ e ∈ warpSuccC2.in_progress_requests, ∃ os m,
        sfind syncC2.shared.sources (warpSourcePred e.1) = some (os, m) ∧
        sget sync2.shared.requests e.2.2.1.outer_request_id =
          some (RequestMapping.Inline os
            (convertWarpRequestDetail e.2.2.2) e.2.2.1.user_data)) ∧
      (∃ af2, sync2.inner = AllSyncInner.AllForks af2 ∧
        ∀ p ∈ warpSuccC2.sources_ordered, ∃ a,
          sget sync2.shared.sources p.2.outer_source_id =
            some (SourceMapping.AllForks a) ∧
          alookup af2.sources a =
            some { user_data := { outer_source_id := p.2.outer_source_id
                                  user_data := p.2.user_data }
                   best_block_number := p.2.best_block_number
                   best_block_hash := p.2.best_block_hash
                   finalized_block_height :=
                     p.2.finalized_block_height }) ∧
      (∀ k m, sget sync2.shared.sources k = some m →
        ∃ a, m = SourceMapping.AllForks a) ∧
      (∀ k m, sget sync2.shared.requests k = some m →
        ∃ src d u, m = RequestMapping.Inline src d u) :=
  c2_warp_transition syncC2 warpSuccC2 rfl (by decide) (by decide)
    (by decide) (by decide) (by decide) (by decide)

end Spec2
